import Mathlib

set_option maxHeartbeats 1000000
set_option linter.unusedTactic false
set_option linter.unreachableTactic false
set_option linter.unnecessarySeqFocus false

/-!
Verification of the ku compiler's semantic middle-end (name resolution,
type inference by unification, name mangling) against its specification.

The Go sources are shallowly embedded below.  Go types from the `ast`
package become the Lean inductive `TR`; a Go `*TypeReference` (base type
plus generic arguments) and the underlying `Type` are fused into one
inductive, where a bare `Type` is represented with an empty generic
argument list.  Go strings are Lean `String`s; Go `nil` pointers become
`Option`; a call to `os.Exit` (the resolver's `err`, which never returns)
is represented by an explicit abort value in the result type.

The `InterfaceType` variant and attribute sets are not embedded: no claim
under verification touches them, and including them would drag the whole
`Function` structure into the type grammar through the interface mangling
case.  Each embedded function carries a comment pointing to the Go source
it was translated from.  Helpers whose Go definitions live in repository
files that are not part of the source snapshot (`type.go`, `ast.go`,
`scope.go`) are modelled from the specification and say so in their doc
comments.
-/

/-- ConstructorId for constructor types (args.go:84-91). -/
inductive CtorId where
  | invalid
  | structMember
  | deref
  | arrayIndex
deriving DecidableEq, Repr

/-- The type grammar: one constructor per `Type` variant of the `ast`
package (spec §3), fused with `TypeReference` by giving every node its
list of generic arguments (`gargs`).  `named` carries its declaring
module path, its method table and its underlying type; `structT`,
`enumT` and `fnT` carry their generic parameter names; `ctorT` is the
inference-time constructor type of args.go:75-82 with its optional
member-name data; `tyVar` is the inference-time type variable of
args.go:47-50; `unresolvedT` is the parse-time stand-in for a dotted
name. -/
inductive TR : Type where
  | prim (name : String) (gargs : List TR)
  | named (name : String) (modPath : List String) (methods : List (String × TR)) (underlying : TR) (gargs : List TR)
  | structT (genParams : List String) (members : List (String × Bool × TR)) (gargs : List TR)
  | tupleT (members : List TR) (gargs : List TR)
  | arrayT (mem : TR) (fixedLen : Bool) (len : Nat) (gargs : List TR)
  | pointerT (addressee : TR) (mutb : Bool) (gargs : List TR)
  | refT (referrer : TR) (mutb : Bool) (gargs : List TR)
  | fnT (genParams : List String) (params : List TR) (ret : Option TR) (recv : Option TR) (variadic : Bool) (gargs : List TR)
  | enumT (genParams : List String) (simple : Bool) (members : List (String × Nat × TR)) (gargs : List TR)
  | substT (name : String) (gargs : List TR)
  | tyVar (id : Nat) (gargs : List TR)
  | ctorT (cid : CtorId) (args : List TR) (data : Option String) (gargs : List TR)
  | unresolvedT (modNames : List String) (nm : String) (gargs : List TR)

/-- Modelled from the spec: `ActualType` (type.go is not under src/).  A
named type's actual type is the actual type of its underlying type
(spec §3: a named type is "a user-declared nominal wrapper around an
underlying type"); every other variant is its own actual type. -/
def actualType : TR → TR
  | .named _ _ _ u _ => actualType u
  | t => t

/-- Modelled from the spec: `getAdressee` (type.go is not under src/).
Returns the addressee of a pointer type or the referred type of a
reference type (spec §4.5 finalization, `Deref`: "unwrap one level of
pointer or reference"), and nothing for any other variant.  Mutability
plays no role: the function takes one type, so it cannot compare flags. -/
def getAdressee : TR → Option TR
  | .pointerT a _ _ => some a
  | .refT r _ _ => some r
  | _ => none

/-- Modelled from the spec: `LevelsOfIndirection` (type.go is not under
src/).  Pointer and reference types add one level over their addressee;
every other variant has zero levels (spec §8: "p has type ^T ... one more
level of indirection"). -/
def levelsOfIndirection : TR → Nat
  | .pointerT a _ _ => levelsOfIndirection a + 1
  | .refT r _ _ => levelsOfIndirection r + 1
  | _ => 0

/-- Unwrapping one level of indirection removes exactly one level. -/
theorem getAdressee_levels (t u : TR) (h : getAdressee t = some u) :
    levelsOfIndirection t = levelsOfIndirection u + 1 := by
  cases t <;> simp [getAdressee] at h <;> subst h <;> simp [levelsOfIndirection]

/-- A type with positive indirection is a pointer or reference, so it has
an addressee. -/
theorem getAdressee_of_levels_pos (t : TR) (h : 0 < levelsOfIndirection t) :
    ∃ u, getAdressee t = some u ∧ levelsOfIndirection u + 1 = levelsOfIndirection t := by
  cases t <;> simp [levelsOfIndirection] at h ⊢ <;> simp [getAdressee]

/-! ## Receiver bridging in `Inferrer.Finalize` (claim C2) -/

/-- The receiver-access expression of a call as far as finalization sees
it: the original access (with the type reference inference assigned to
it) possibly wrapped by the automatically inserted `DerefAccessExpr` or
`PointerToExpr` nodes (args.go:1376-1377, 1390-1391). -/
inductive RecvAccess where
  | base (t : TR)
  | derefA (e : RecvAccess)
  | ptrToA (mutb : Bool) (e : RecvAccess)

/-- Modelled from the spec: `GetType` of a receiver access (ast.go is not
under src/).  The original access reports the type inference assigned to
it; a deref wrapper reports one level of indirection unwrapped (spec
§4.5: "Deref ...: unwrap one level of pointer or reference"); a
pointer-to wrapper reports a pointer to its operand's type (spec §4.5:
"`&e` / `^e`: result is Ref/Ptr(id(e), mut)"). -/
def recvAccessType : RecvAccess → Option TR
  | .base t => some t
  | .derefA e => (recvAccessType e).bind getAdressee
  | .ptrToA m e => (recvAccessType e).map (fun t => TR.pointerT t m [])

/-- The receiver-bridging fragment of `Inferrer.Finalize`
(args.go:1370-1394): for a call whose resolved function type has a
receiver, first insert a `DerefAccessExpr` when the access has one more
level of indirection than the receiver type, then (re-reading the access
type) insert a mutable `PointerToExpr` when the access has one less
level.  Level comparisons are Go `int` arithmetic, hence `Int` here. -/
def bridgeReceiver (recType : TR) (access : RecvAccess) : RecvAccess :=
  let access1 :=
    match recvAccessType access with
    | some accessType =>
        if (levelsOfIndirection accessType : Int) = (levelsOfIndirection recType : Int) + 1
        then RecvAccess.derefA access else access
    | none => access
  match recvAccessType access1 with
  | some accessType =>
      if (levelsOfIndirection accessType : Int) = (levelsOfIndirection recType : Int) - 1
      then RecvAccess.ptrToA true access1 else access1
  | none => access1

/-- C2: finalization bridges exactly one level of indirection on a method
call's receiver.  When the receiver access's type has one more level of
indirection than the method's receiver type, exactly one automatic deref
is inserted; with one less level, exactly one automatic address-of is
inserted; with equal levels or a difference of two or more, the access
is left untouched. -/
theorem c2_receiver_bridging (recType t : TR) :
    (levelsOfIndirection t = levelsOfIndirection recType + 1 →
      bridgeReceiver recType (.base t) = .derefA (.base t)) ∧
    (levelsOfIndirection t + 1 = levelsOfIndirection recType →
      bridgeReceiver recType (.base t) = .ptrToA true (.base t)) ∧
    (levelsOfIndirection t = levelsOfIndirection recType →
      bridgeReceiver recType (.base t) = .base t) ∧
    (levelsOfIndirection t ≥ levelsOfIndirection recType + 2 ∨
      levelsOfIndirection recType ≥ levelsOfIndirection t + 2 →
      bridgeReceiver recType (.base t) = .base t) := by
  refine ⟨?_, ?_, ?_, ?_⟩
  · intro h
    have hpos : 0 < levelsOfIndirection t := by omega
    obtain ⟨u, hu, hlev⟩ := getAdressee_of_levels_pos t hpos
    unfold bridgeReceiver
    simp only [recvAccessType, Option.bind, hu]
    rw [if_pos (by omega)]
    simp only [recvAccessType, Option.some_bind, hu]
    rw [if_neg (by omega)]
  · intro h
    unfold bridgeReceiver
    simp only [recvAccessType]
    rw [if_neg (by omega)]
    simp only [recvAccessType]
    rw [if_pos (by omega)]
  · intro h
    unfold bridgeReceiver
    simp only [recvAccessType]
    rw [if_neg (by omega)]
    simp only [recvAccessType]
    rw [if_neg (by omega)]
  · intro h
    unfold bridgeReceiver
    simp only [recvAccessType]
    rw [if_neg (by omega)]
    simp only [recvAccessType]
    rw [if_neg (by omega)]

/-- C2 witness: with receiver type `C` and access type `^C`, one deref is
inserted; with receiver `^C` and access `C`, one address-of is
inserted; with access `^^C` against receiver `C` nothing is inserted. -/
theorem c2_receiver_bridging_witness :
    bridgeReceiver (TR.named "C" ["m"] [] (TR.structT [] [] []) [])
        (.base (TR.pointerT (TR.named "C" ["m"] [] (TR.structT [] [] []) []) true [])) =
      .derefA (.base (TR.pointerT (TR.named "C" ["m"] [] (TR.structT [] [] []) []) true [])) ∧
    bridgeReceiver (TR.pointerT (TR.named "C" ["m"] [] (TR.structT [] [] []) []) true [])
        (.base (TR.named "C" ["m"] [] (TR.structT [] [] []) [])) =
      .ptrToA true (.base (TR.named "C" ["m"] [] (TR.structT [] [] []) [])) ∧
    bridgeReceiver (TR.named "C" ["m"] [] (TR.structT [] [] []) [])
        (.base (TR.pointerT (TR.pointerT (TR.named "C" ["m"] [] (TR.structT [] [] []) []) true []) true [])) =
      .base (TR.pointerT (TR.pointerT (TR.named "C" ["m"] [] (TR.structT [] [] []) []) true []) true []) :=
  ⟨(c2_receiver_bridging _ _).1 rfl,
   (c2_receiver_bridging _ _).2.1 rfl,
   (c2_receiver_bridging _ _).2.2.2 (Or.inl (by simp [levelsOfIndirection]))⟩

/-! ## Default types for numeric literals (claim C3) -/

/-- The primitive type names accepted by a non-float numeric literal
(args.go:1503-1507): the integer widths, platform integers, and the float
widths. -/
def numericIntTypeNames : List String :=
  ["int", "uint", "uintptr", "s8", "s16", "s32", "s64", "s128",
   "u8", "u16", "u32", "u64", "u128", "f32", "f64", "f128"]

/-- The primitive type names accepted by a float numeric literal
(args.go:1495-1496). -/
def numericFloatTypeNames : List String := ["f32", "f64", "f128"]

/-- Whether the actual type of an imposed context type is one of the
primitives a numeric literal accepts (the `case PRIMITIVE_...` lists of
args.go:1495-1496 and 1503-1507). -/
def numericTypeAllowed (isFloat : Bool) : TR → Bool
  | .prim n _ => (if isFloat then numericFloatTypeNames else numericIntTypeNames).contains n
  | _ => false

/-- The default type a numeric literal falls back to (args.go:1500,
1511): `f64` for float literals, `int` for integer literals. -/
def numericDefaultType (isFloat : Bool) : TR :=
  if isFloat then TR.prim "f64" [] else TR.prim "int" []

/-- `NumericLiteral.SetType` (args.go:1488-1514): the literal keeps the
imposed type only when its actual type is one of the accepted numeric
primitives; otherwise (including a nil imposed type, for which `actual`
stays nil) the literal's type becomes the default. -/
def numericLiteralSetType (isFloat : Bool) (t : Option TR) : TR :=
  match t with
  | some tref =>
      if numericTypeAllowed isFloat (actualType tref) then tref
      else numericDefaultType isFloat
  | none => numericDefaultType isFloat

/-- Modelled from the spec: `NumericLiteral.GetType` (ast.go is not under
src/).  A numeric literal whose type field was never set reports the
default type (spec §4.5 step 5: "integer literals default to `int`,
float literals to `f64`"); the `#706` bandaid of `Inferrer.Finalize`
(args.go:1466-1472) then copies this reported type onto a variable
declared without a type annotation. -/
def numericLiteralGetType (isFloat : Bool) (typeField : Option TR) : TR :=
  typeField.getD (numericDefaultType isFloat)

/-- C3: a numeric literal that reaches the end of inference without a
numeric type imposed by context is finalized at the default type:
`SetType` with no imposed type or with a non-numeric imposed type stores
`int` for integer literals and `f64` for float literals, and the type an
unconstrained literal reports — which the finalization bandaid copies
onto `a` in `var a = 2` and `b` in `var b = 2.5` — is `int`, resp.
`f64`. -/
theorem c3_numeric_literal_defaults :
    (∀ (isFloat : Bool) (t : TR), numericTypeAllowed isFloat (actualType t) = false →
      numericLiteralSetType isFloat (some t) = numericDefaultType isFloat) ∧
    (∀ isFloat : Bool, numericLiteralSetType isFloat none = numericDefaultType isFloat) ∧
    numericLiteralGetType false none = TR.prim "int" [] ∧
    numericLiteralGetType true none = TR.prim "f64" [] := by
  refine ⟨?_, ?_, rfl, rfl⟩
  · intro isFloat t h
    simp [numericLiteralSetType, h]
  · intro isFloat
    rfl

/-- C3 witness: an integer literal with a `bool` context type and with no
context type finalizes at `int`; a float literal with no context type
finalizes at `f64`. -/
theorem c3_numeric_literal_defaults_witness :
    numericLiteralSetType false (some (TR.prim "bool" [])) = TR.prim "int" [] ∧
    numericLiteralSetType false none = TR.prim "int" [] ∧
    numericLiteralGetType true none = TR.prim "f64" [] :=
  ⟨(c3_numeric_literal_defaults.1 false (TR.prim "bool" []) rfl).trans rfl,
   (c3_numeric_literal_defaults.2.1 false).trans rfl,
   c3_numeric_literal_defaults.2.2.2⟩

/-! ## Idempotence of Resolve and Infer (claim C9) -/

/-- A module as `Resolve` (resolve.go:61-92) sees it: the `resolved`
guard flag plus everything else the resolver may mutate (scopes,
bindings, AST nodes), abstracted into one `rest` component of an
arbitrary type.  The body of `Resolve` (resolve.go:66-91) never writes
`mod.resolved` again after setting it, so it is a function on `rest`
alone; the theorem below quantifies over every such body. -/
structure ModState (α : Type) where
  resolved : Bool
  rest : α

/-- `Resolve` (resolve.go:61-92): return at once when the module is
already resolved, otherwise set the flag first and run the resolution
body on the rest of the state. -/
def resolveModule {α : Type} (work : α → α) (m : ModState α) : ModState α :=
  if m.resolved then m else { resolved := true, rest := work m.rest }

/-- A sub-module as `Infer` (args.go:439-466) sees it: the `inferred`
guard flag, the sub-modules of the used modules (`submod.UseScope.
UsedModules`), and everything else the inferrer may mutate abstracted
into a `rest` component.  The body of `Infer` never writes
`submod.inferred` again after setting it. -/
inductive SubmState (α : Type) : Type where
  | mk (inferred : Bool) (deps : List (SubmState α)) (rest : α)

/-- Whether a sub-module state is marked inferred. -/
def SubmState.inferred {α : Type} : SubmState α → Bool
  | .mk b _ _ => b

mutual

/-- `Infer` (args.go:439-466): return at once when the sub-module is
already inferred, otherwise set the flag first, infer every sub-module
of every used module, and run the inference body on the rest of the
state. -/
def inferSubmodule {α : Type} (work : α → α) : SubmState α → SubmState α
  | .mk true deps rest => .mk true deps rest
  | .mk false deps rest => .mk true (inferSubmoduleList work deps) (work rest)

def inferSubmoduleList {α : Type} (work : α → α) : List (SubmState α) → List (SubmState α)
  | [] => []
  | d :: ds => inferSubmodule work d :: inferSubmoduleList work ds

end

/-- C9: resolution and inference are idempotent.  `Resolve` on a module
whose resolved flag is set, and `Infer` on a sub-module whose inferred
flag is set, return the state unchanged — for every possible resolution
or inference body — and running either pass a second time is always a
no-op. -/
theorem c9_resolve_infer_idempotent {α β : Type} (workR : α → α) (workI : β → β)
    (m : ModState α) (s : SubmState β) :
    (m.resolved = true → resolveModule workR m = m) ∧
    (s.inferred = true → inferSubmodule workI s = s) ∧
    resolveModule workR (resolveModule workR m) = resolveModule workR m ∧
    inferSubmodule workI (inferSubmodule workI s) = inferSubmodule workI s := by
  refine ⟨?_, ?_, ?_, ?_⟩
  · intro h
    simp [resolveModule, h]
  · intro h
    cases s with
    | mk b deps rest => cases b with
      | true => rfl
      | false => simp [SubmState.inferred] at h
  · by_cases h : m.resolved
    · simp [resolveModule, h]
    · simp [resolveModule, h]
  · cases s with
    | mk b deps rest =>
      cases b with
      | true => rfl
      | false => rfl

/-- C9 witness: a resolved module state and an inferred sub-module state
are left unchanged by a second pass. -/
theorem c9_resolve_infer_idempotent_witness :
    resolveModule (fun n : Nat => n + 1) ⟨true, 0⟩ = ⟨true, 0⟩ ∧
    inferSubmodule (fun n : Nat => n + 1) (.mk true [] 0) = .mk true [] 0 :=
  ⟨(c9_resolve_infer_idempotent (fun n : Nat => n + 1) (fun n : Nat => n + 1)
      ⟨true, 0⟩ (.mk true [] 0)).1 rfl,
   (c9_resolve_infer_idempotent (fun n : Nat => n + 1) (fun n : Nat => n + 1)
      ⟨true, 0⟩ (.mk true [] 0)).2.1 rfl⟩

/-! ## Resolver identifier lookup (claim C1) -/

/-- `UnresolvedName` (resolve.go:12-15): a dotted identifier, split into
leading module qualifiers and a final name segment. -/
structure UName where
  moduleNames : List String
  name : String
deriving DecidableEq, Repr

/-- `UnresolvedName.Split` (resolve.go:26-35): peel the last module
qualifier off, so `a.b.c` becomes the pair (`a.b`, `c`); with no
qualifiers the result is an empty name and `""`. -/
def unameSplit : UName → UName × String
  | ⟨[], _⟩ => (⟨[], ""⟩, "")
  | ⟨m :: ms, n⟩ =>
      (⟨(m :: ms).dropLast, (m :: ms).getLast (List.cons_ne_nil m ms)⟩, n)

/-- The kind tag of a scope binding (`IDENT_TYPE`, `IDENT_FUNCTION`,
`IDENT_VARIABLE`; scope.go is not under src/, kinds modelled from their
uses in resolve.go). -/
inductive IdentKind where
  | typeK
  | functionK
  | variableK
deriving DecidableEq, Repr

/-- The value held by a scope binding: a type, a function (by id), or a
variable (name and optional declared type). -/
inductive IdentValue where
  | tyV (t : TR)
  | fnV (fid : Nat)
  | varV (vname : String) (ty : Option TR)

/-- Modelled from the spec: a scope binding (`Ident`; scope.go is not
under src/).  Spec §3: "Each binding records whether it is public", and
each binding's scope records its owning module (a name-path) and
optional owning function; resolve.go reads exactly the fields
`ident.Type`, `ident.Value`, `ident.Public`, `ident.Scope.Module` and
`ident.Scope.Function`. -/
structure Ident where
  kind : IdentKind
  publicFlag : Bool
  scopeModule : List String
  scopeFunction : Option Nat
  value : IdentValue

/-- The resolver state a lookup reads: the current scope chain and the
sub-module's use-scope (each abstracted to a lookup function, since
scope.go is not under src/), the module being resolved (`v.module`,
identified by its name-path) and the current function
(`v.currentFunction()`). -/
structure LookupEnv where
  scopeLookup : UName → Option Ident
  useScopeLookup : UName → Option Ident
  curModule : List String
  curFunction : Option Nat

/-- The shared first two lines of `tryGetIdent` and `getIdent`
(resolve.go:193-196, 218-221): consult the current scope chain, then the
sub-module's use-scope. -/
def lookupChain (env : LookupEnv) (name : UName) : Option Ident :=
  match env.scopeLookup name with
  | some i => some i
  | none => env.useScopeLookup name

/-- Whether a lookup hits the lambda-capture restriction
(resolve.go:208, 233): the binding's scope has an owning function and it
differs from the resolver's current function. -/
def captureViolation (env : LookupEnv) (id : Ident) : Bool :=
  match id.scopeFunction with
  | none => false
  | some f => env.curFunction != some f

/-- `Resolver.tryGetIdent` (resolve.go:190-213).  The second component
records whether the process exited.  An unresolved name is logged
(`log.Errorln`, which does not exit — compare `Resolver.err` at
resolve.go:177-188, which must call `os.Exit` itself after `log.Error`)
and `nil` is returned; a privacy violation (resolve.go:203-205) and a
capture violation (resolve.go:208-210) are likewise only logged, after
which the found binding is returned anyway.  No path exits. -/
def tryGetIdent (env : LookupEnv) (name : UName) : Option Ident × Bool :=
  match lookupChain env name with
  | none => (none, false)
  | some id => (some id, false)

/-- `Resolver.getIdent` (resolve.go:215-238): same lookup chain, but an
unresolved name, a cross-module access of a non-public binding, or a
capture violation each call `v.err`, which prints the diagnostic and
exits the process (resolve.go:177-188). -/
def getIdent (env : LookupEnv) (name : UName) : Option Ident × Bool :=
  match lookupChain env name with
  | none => (none, true)
  | some id =>
      if !id.publicFlag && (id.scopeModule != env.curModule) then (none, true)
      else if captureViolation env id then (none, true)
      else (some id, false)

/-- A successful chain lookup makes `tryGetIdent` return the binding
without exiting, whatever its privacy situation. -/
theorem tryGetIdent_of_lookupChain (env : LookupEnv) (name : UName) (id : Ident)
    (h : lookupChain env name = some id) : tryGetIdent env name = (some id, false) := by
  simp [tryGetIdent, h]

/-- C1 counterexample: the claim says the privacy check rejects (exits)
on every lookup path, including the retrying lookups, but `tryGetIdent`
— the lookup used by the retrying disambiguation of dotted variable
accesses (resolve.go:356, 385, 396) and calls (resolve.go:539, 572,
580) — returns a non-public binding of a foreign module without
exiting: here the current module is `a`, the binding lives in module `b`
and is not public, and `tryGetIdent` returns it with the exited flag
`false`. -/
theorem c1_counterexample_private_lookup_no_abort :
    tryGetIdent
        ⟨fun _ => some ⟨.variableK, false, ["b"], none, .varV "x" none⟩,
         fun _ => none, ["a"], none⟩
        ⟨[], "x"⟩ =
      (some ⟨.variableK, false, ["b"], none, .varV "x" none⟩, false) ∧
    (⟨.variableK, false, ["b"], none, .varV "x" none⟩ : Ident).publicFlag = false ∧
    (⟨.variableK, false, ["b"], none, .varV "x" none⟩ : Ident).scopeModule ≠ ["a"] := by
  refine ⟨rfl, rfl, by simp⟩

/-- C1 amended: a lookup that finds a non-public binding of a foreign
module is fatal on the `getIdent` paths — the resolver prints the error
and exits — but the retrying lookups used to disambiguate dotted
variable accesses and calls go through `tryGetIdent`, which only logs
the privacy violation and returns the binding without aborting. -/
theorem c1_privacy_amended (env : LookupEnv) (name : UName) (id : Ident)
    (hfound : lookupChain env name = some id)
    (hpriv : id.publicFlag = false)
    (hmod : id.scopeModule ≠ env.curModule) :
    getIdent env name = (none, true) ∧ tryGetIdent env name = (some id, false) := by
  constructor
  · simp only [getIdent, hfound]
    rw [if_pos]
    simp [hpriv, bne_iff_ne, hmod]
  · exact tryGetIdent_of_lookupChain env name id hfound

/-- C1 amended witness: the concrete lookup situation of the
counterexample, pushed through both lookup functions. -/
theorem c1_privacy_amended_witness :
    getIdent
        ⟨fun _ => some ⟨.variableK, false, ["b"], none, .varV "x" none⟩,
         fun _ => none, ["a"], none⟩
        ⟨[], "x"⟩ = (none, true) ∧
    tryGetIdent
        ⟨fun _ => some ⟨.variableK, false, ["b"], none, .varV "x" none⟩,
         fun _ => none, ["a"], none⟩
        ⟨[], "x"⟩ =
      (some ⟨.variableK, false, ["b"], none, .varV "x" none⟩, false) :=
  c1_privacy_amended
    ⟨fun _ => some ⟨.variableK, false, ["b"], none, .varV "x" none⟩,
     fun _ => none, ["a"], none⟩
    ⟨[], "x"⟩
    ⟨.variableK, false, ["b"], none, .varV "x" none⟩
    rfl rfl (by simp)

/-! ## Call-expression resolution: enum literals and casts (claims C4, C8) -/

/-- The expression fragment the `CallExpr` branch of `Resolver.ResolveNode`
(resolve.go:529-616) manipulates: unresolved variable accesses, calls
(function expression, optional receiver access, arguments), struct
accesses, reference-to / pointer-to wrappers, enum literals with an
optional tuple payload (the payload's members and the payload's type
reference), and casts. -/
inductive RExpr where
  | vae (name : UName) (gargs : List TR)
  | callE (fn : RExpr) (recvAccess : Option RExpr) (args : List RExpr)
  | sae (member : String) (struct : RExpr)
  | rte (mutb : Bool) (access : RExpr)
  | pte (mutb : Bool) (access : RExpr)
  | enumLit (ty : TR) (member : String) (payload : Option (List RExpr × TR))
  | castE (ty : TR) (expr : RExpr)

/-- The generic-argument list of a type reference. -/
def trGargs : TR → List TR
  | .prim _ g => g
  | .named _ _ _ _ g => g
  | .structT _ _ g => g
  | .tupleT _ g => g
  | .arrayT _ _ _ g => g
  | .pointerT _ _ g => g
  | .refT _ _ g => g
  | .fnT _ _ _ _ _ g => g
  | .enumT _ _ _ g => g
  | .substT _ g => g
  | .tyVar _ g => g
  | .ctorT _ _ _ g => g
  | .unresolvedT _ _ g => g

/-- Rebuild a type reference around the same base type with a new
generic-argument list (the Go `&TypeReference{BaseType: b,
GenericArguments: gs}` construction). -/
def trWithGargs : TR → List TR → TR
  | .prim n _, g => .prim n g
  | .named n mp ms u _, g => .named n mp ms u g
  | .structT gp mems _, g => .structT gp mems g
  | .tupleT mems _, g => .tupleT mems g
  | .arrayT m f l _, g => .arrayT m f l g
  | .pointerT a m _, g => .pointerT a m g
  | .refT r m _, g => .refT r m g
  | .fnT gp ps r rc v _, g => .fnT gp ps r rc v g
  | .enumT gp s mems _, g => .enumT gp s mems g
  | .substT n _, g => .substT n g
  | .tyVar i _, g => .tyVar i g
  | .ctorT c a d _, g => .ctorT c a d g
  | .unresolvedT ms n _, g => .unresolvedT ms n g

/-- Modelled from the spec: `EnumType.GetMember` (type.go is not under
src/).  Member lookup by name in the enum's ordered member list (spec
§3: an enum is a list of members, each with a name, a discriminant and a
payload type). -/
def enumGetMember : List (String × Nat × TR) → String → Option (Nat × TR)
  | [], _ => none
  | (n, tag, ty) :: rest, name => if n = name then some (tag, ty) else enumGetMember rest name

/-- Modelled from the spec: `TypeWithoutPointers` and
`TypeReferenceWithoutPointers` (type.go is not under src/): strip every
pointer wrapper off a type (used for receiver types, which are at most
`^T` around a named type). -/
def typeWithoutPointers : TR → TR
  | .pointerT a _ _ => typeWithoutPointers a
  | t => t

/-- `checkReceiverType` (resolve.go:275-287) as a predicate: the receiver
type stripped of pointers must be a named type declared in the module
being resolved; otherwise `v.err` exits. -/
def checkReceiverTypeOk (curModule : List String) (t : TR) : Bool :=
  match typeWithoutPointers t with
  | .named _ mp _ _ _ => mp == curModule
  | _ => false

/-- The type-map half of the `UnresolvedType` case of `Resolver.ResolveType`
(resolve.go:831-841): a non-type ident is a fatal error; a type ident's
value is resolved again, and since `ResolveTopLevelDecls` only inserts
named types (resolve.go:129) and declarations insert their substitution
type parameters (resolve.go:308-311, 709-710, 754-757, 791-794), that
recursive call hits the identity cases of `ResolveType`
(resolve.go:703-704 for named types, resolve.go:738-750 for substitution
types, whose constraint references are resolved in place). -/
def resolveTypeIdentValue : Ident → Except Unit TR := fun id =>
  if id.kind = .typeK then
    match id.value with
    | .tyV t => .ok t
    | _ => .error ()
  else .error ()

/-- The `UnresolvedType` case of `Resolver.ResolveType`
(resolve.go:831-841): look the dotted name up through `getIdent` (which
exits on unresolved names and privacy violations) and take the type
value found. -/
def resolveUnresolvedType (env : LookupEnv) (name : UName) : Except Unit TR :=
  match getIdent env name with
  | (_, true) => .error ()
  | (some id, false) => resolveTypeIdentValue id
  | (none, false) => .error ()

mutual

/-- `Resolver.ResolveTypeReference` and `Resolver.ResolveType`
(resolve.go:694-847) over a fixed lookup environment, fused: each
variant resolves its child type references, generic arguments included;
primitives, named types and substitution types resolve to themselves
(resolve.go:703-704, 738-750); a function type's receiver must pass
`checkReceiverType` (resolve.go:821-824); an unresolved dotted name is
looked up (resolve.go:831-841).  Inference-only variants (type
variables, constructor types) never reach the resolver — the Go code
would hit the internal-error case (resolve.go:843-846), modelled as an
abort. -/
def resolveTR (env : LookupEnv) : TR → Except Unit TR
  | .prim n g => do pure (.prim n (← resolveTRs env g))
  | .named n mp ms u g => do pure (.named n mp ms u (← resolveTRs env g))
  | .substT n g => do pure (.substT n (← resolveTRs env g))
  | .structT gp mems g => do
      pure (.structT gp (← resolveMemberList env mems) (← resolveTRs env g))
  | .tupleT mems g => do pure (.tupleT (← resolveTRs env mems) (← resolveTRs env g))
  | .arrayT m f l g => do pure (.arrayT (← resolveTR env m) f l (← resolveTRs env g))
  | .pointerT a m g => do pure (.pointerT (← resolveTR env a) m (← resolveTRs env g))
  | .refT r m g => do pure (.refT (← resolveTR env r) m (← resolveTRs env g))
  | .fnT gp ps r rc v g => do
      let ps' ← resolveTRs env ps
      let r' ← resolveOptTR env r
      let rc' ← resolveOptTR env rc
      match rc' with
      | some rcv =>
          if checkReceiverTypeOk env.curModule rcv then
            pure (.fnT gp ps' r' rc' v (← resolveTRs env g))
          else .error ()
      | none => pure (.fnT gp ps' r' rc' v (← resolveTRs env g))
  | .enumT gp s mems g => do
      pure (.enumT gp s (← resolveEnumMemberList env mems) (← resolveTRs env g))
  | .unresolvedT ms n g => do
      let gs ← resolveTRs env g
      let base ← resolveUnresolvedType env ⟨ms, n⟩
      pure (trWithGargs base gs)
  | .tyVar _ _ => .error ()
  | .ctorT _ _ _ _ => .error ()

/-- `Resolver.ResolveTypeReferences` (resolve.go:686-692). -/
def resolveTRs (env : LookupEnv) : List TR → Except Unit (List TR)
  | [] => .ok []
  | t :: ts => do pure ((← resolveTR env t) :: (← resolveTRs env ts))

/-- Resolution of an optional type reference (a nil-able Go field). -/
def resolveOptTR (env : LookupEnv) : Option TR → Except Unit (Option TR)
  | none => .ok none
  | some t => do pure (some (← resolveTR env t))

/-- Resolution of struct members (resolve.go:766-774). -/
def resolveMemberList (env : LookupEnv) :
    List (String × Bool × TR) → Except Unit (List (String × Bool × TR))
  | [] => .ok []
  | (n, p, t) :: ts => do
      pure ((n, p, (← resolveTR env t)) :: (← resolveMemberList env ts))

/-- Resolution of enum members (resolve.go:803-807). -/
def resolveEnumMemberList (env : LookupEnv) :
    List (String × Nat × TR) → Except Unit (List (String × Nat × TR))
  | [] => .ok []
  | (n, tag, t) :: ts => do
      pure ((n, tag, (← resolveTR env t)) :: (← resolveEnumMemberList env ts))

end

/-- The enum-literal attempt of the `CallExpr` branch
(resolve.go:535-570).  `none` means the guarding conditions were not met
and resolution falls through to the retry loop; `some r` means the
branch fired, with `r` the rewritten node or an abort.  The conditions:
the function expression's name has module qualifiers, its prefix is
found by `tryGetIdent`, the binding is a type, and its actual type is an
enum.  On fire: resolve the enum's type reference (resolve.go:543-548,
which re-resolves the already resolved generic arguments), look the
member up — a missing member is a fatal error (resolve.go:551-553) —
and build an `EnumLiteral` whose `TupleLiteral` holds the call's
arguments (resolve.go:555-567). -/
def enumTupleAttempt (env : LookupEnv) (name : UName) (gargs : List TR)
    (args : List RExpr) : Option (Except Unit RExpr) :=
  match name.moduleNames with
  | [] => none
  | _ :: _ =>
      let (enumName, memberName) := unameSplit name
      match (tryGetIdent env enumName).1 with
      | none => none
      | some id =>
          if id.kind = .typeK then
            match id.value with
            | .tyV itype =>
                match actualType itype with
                | .enumT _ _ _ _ =>
                    some (do
                      let gs ← resolveTRs env gargs
                      let et ← resolveTR env (.unresolvedT enumName.moduleNames enumName.name gs)
                      match actualType et with
                      | .enumT _ _ members _ =>
                          match enumGetMember members memberName with
                          | none => Except.error ()
                          | some (_, memTy) =>
                              Except.ok (.enumLit et memberName
                                (some (args, trWithGargs memTy (trGargs et))))
                      | _ => Except.error ())
                | _ => none
            | _ => none
          else none

/-- The retrying lookup loop of the `CallExpr` branch
(resolve.go:572-594), also used verbatim for plain variable accesses
(resolve.go:385-409): while the name is unresolved and still has module
qualifiers, peel the last qualifier, retry the lookup on the shortened
name, and record the peeled member.  Returns the lookup result, the
final (possibly shortened) name, and the peeled member names in
iteration order. -/
def retryLoop (env : LookupEnv) :
    Option Ident → UName → List String → Option Ident × UName × List String
  | some i, name, acc => (some i, name, acc)
  | none, ⟨[], n⟩, acc => (none, ⟨[], n⟩, acc)
  | none, ⟨m :: ms, n⟩, acc =>
      let parentName : UName :=
        ⟨(m :: ms).dropLast, (m :: ms).getLast (List.cons_ne_nil m ms)⟩
      retryLoop env (tryGetIdent env parentName).1 parentName (acc ++ [n])
termination_by _ name _ => name.moduleNames.length
decreasing_by
  simp [List.length_dropLast]

/-- The `StructAccessExpr` wrapper the retry loop builds around the
rewritten variable access (resolve.go:582-592).  All wrappers share a
pointer to the same mutated `vae`, and `wrap.Struct` is overwritten on
every later iteration, so after the loop only the first and the last
peeled member survive in the chain. -/
def buildWrap (members : List String) (inner : RExpr) : Option RExpr :=
  match members with
  | [] => none
  | [m] => some (.sae m inner)
  | m :: rest =>
      some (.sae m (.sae (rest.getLast? |>.getD "") inner))

/-- The reference/pointer unwrapping loop of `Resolver.exprToType`
(resolve.go:643-657): collect one `(isReference, isMutable)` pair per
wrapper, outermost first, and return the innermost expression. -/
def peelRefPtr : RExpr → List (Bool × Bool) × RExpr
  | .rte m a => let (l, e) := peelRefPtr a; ((true, m) :: l, e)
  | .pte m a => let (l, e) := peelRefPtr a; ((false, m) :: l, e)
  | e => ([], e)

/-- The wrapper re-application loop of `Resolver.exprToType`
(resolve.go:663-670): fold over the collected wrapper list in order,
wrapping the resolved base type.  Because the list is ordered outermost
first and each step wraps the accumulated type, mixed wrapper chains are
rebuilt inside out. -/
def applyWrappers : List (Bool × Bool) → TR → TR
  | [], res => res
  | (isRef, m) :: rest, res =>
      applyWrappers rest (if isRef then TR.refT res m [] else TR.pointerT res m [])

/-- `Resolver.exprToType` (resolve.go:642-676): unwrap reference-to and
pointer-to wrappers, and when the innermost expression is a variable
access whose `getIdent` lookup (fatal on unresolved names and privacy
violations) yields a type binding, return that type with the wrappers
re-applied; otherwise report "not a type". -/
def exprToType (env : LookupEnv) (e : RExpr) : Except Unit (Option TR) :=
  let (wrappers, inner) := peelRefPtr e
  match inner with
  | .vae name _ =>
      (match getIdent env name with
       | (_, true) => .error ()
       | (some id, false) =>
           if id.kind = .typeK then
             match id.value with
             | .tyV res => .ok (some (applyWrappers wrappers res))
             | _ => .ok none
           else .ok none
       | (none, false) => .ok none)
  | _ => .ok none

/-- The call-versus-cast check closing the `CallExpr` branch
(resolve.go:604-616): when the function expression resolves to a type,
the call must carry exactly one argument — anything else is a fatal
error — and the node is rewritten into a cast of that type applied to
the argument; otherwise the node stays a call. -/
def resolveCallCast (env : LookupEnv) (fn : RExpr) (recv : Option RExpr)
    (args : List RExpr) : Except Unit RExpr := do
  match ← exprToType env fn with
  | none => pure (.callE fn recv args)
  | some typ =>
      match args with
      | [a] => pure (.castE typ a)
      | _ => .error ()

/-- The part of the `CallExpr` branch following the enum attempt
(resolve.go:572-616) for a function expression that is a variable
access: run the retry loop; when it built a struct-access wrapper,
install it as the call's function and the rewritten variable access as
the call's receiver access (resolve.go:595-598); finally run the cast
check. -/
def resolveCallAfterEnum (env : LookupEnv) (name : UName) (gargs : List TR)
    (recv : Option RExpr) (args : List RExpr) : Except Unit RExpr :=
  let (_, finalName, members) := retryLoop env (tryGetIdent env name).1 name []
  let vaeFinal := RExpr.vae finalName gargs
  match buildWrap members vaeFinal with
  | some w => resolveCallCast env w (some vaeFinal) args
  | none => resolveCallCast env vaeFinal recv args

/-- The `CallExpr` branch of `Resolver.ResolveNode` (resolve.go:529-616):
for a variable-access function expression, first try the enum-literal
rewrite, then the retry loop, then the cast check; for any other
function expression only the cast check applies. -/
def resolveCallExpr (env : LookupEnv) (fn : RExpr) (recv : Option RExpr)
    (args : List RExpr) : Except Unit RExpr :=
  match fn with
  | .vae name gargs =>
      match enumTupleAttempt env name gargs args with
      | some r => r
      | none => resolveCallAfterEnum env name gargs recv args
  | _ => resolveCallCast env fn recv args

/-- Wrapper chains for the cast theorem: wrap an expression in the given
reference-to / pointer-to wrappers, outermost first. -/
def mkWrapped : List (Bool × Bool) → RExpr → RExpr
  | [], e => e
  | (isRef, m) :: rest, e =>
      if isRef then RExpr.rte m (mkWrapped rest e) else RExpr.pte m (mkWrapped rest e)

/-- Peeling a built wrapper chain around a variable access recovers the
wrapper list and the access. -/
theorem peelRefPtr_mkWrapped (ws : List (Bool × Bool)) (n : UName) (g : List TR) :
    peelRefPtr (mkWrapped ws (.vae n g)) = (ws, .vae n g) := by
  induction ws with
  | nil => rfl
  | cons w rest ih =>
      obtain ⟨isRef, m⟩ := w
      cases isRef <;> simp [mkWrapped, peelRefPtr, ih]

/-- C4: a call `E.Tag(args)` whose dotted prefix `E` resolves (through
the retrying `tryGetIdent`) to a type binding whose actual type is an
enum is never left as a `CallExpr`: the branch either aborts or rewrites
the node.  When the enum's type reference resolves and `Tag` is not a
member, resolution exits fatally; when `Tag` is a member, the node
becomes an `EnumLiteral` whose tuple payload holds exactly the call's
arguments. -/
theorem c4_enum_call_rewrite (env : LookupEnv) (mods : List String) (nm : String)
    (gargs : List TR) (recv : Option RExpr) (args : List RExpr) (id : Ident) (itype : TR)
    (hmods : mods ≠ [])
    (hfound : (tryGetIdent env (unameSplit ⟨mods, nm⟩).1).1 = some id)
    (hkind : id.kind = .typeK)
    (hval : id.value = .tyV itype)
    (henum : ∃ gp s ms g, actualType itype = .enumT gp s ms g) :
    (∀ f r a, resolveCallExpr env (.vae ⟨mods, nm⟩ gargs) recv args ≠ .ok (.callE f r a)) ∧
    (∀ gs et gp2 s2 members2 g2,
      resolveTRs env gargs = .ok gs →
      resolveTR env (.unresolvedT (unameSplit ⟨mods, nm⟩).1.moduleNames
        (unameSplit ⟨mods, nm⟩).1.name gs) = .ok et →
      actualType et = .enumT gp2 s2 members2 g2 →
      (enumGetMember members2 (unameSplit ⟨mods, nm⟩).2 = none →
        resolveCallExpr env (.vae ⟨mods, nm⟩ gargs) recv args = .error ()) ∧
      (∀ tag memTy, enumGetMember members2 (unameSplit ⟨mods, nm⟩).2 = some (tag, memTy) →
        resolveCallExpr env (.vae ⟨mods, nm⟩ gargs) recv args =
          .ok (.enumLit et (unameSplit ⟨mods, nm⟩).2
            (some (args, trWithGargs memTy (trGargs et)))))) := by
  obtain ⟨gp, s, ms, g, henum⟩ := henum
  cases mods with
  | nil => exact absurd rfl hmods
  | cons m mrest =>
    have hattempt : enumTupleAttempt env ⟨m :: mrest, nm⟩ gargs args =
        some (do
          let gs ← resolveTRs env gargs
          let et ← resolveTR env (.unresolvedT (unameSplit ⟨m :: mrest, nm⟩).1.moduleNames
            (unameSplit ⟨m :: mrest, nm⟩).1.name gs)
          match actualType et with
          | .enumT _ _ members _ =>
              match enumGetMember members (unameSplit ⟨m :: mrest, nm⟩).2 with
              | none => Except.error ()
              | some (_, memTy) =>
                  Except.ok (.enumLit et (unameSplit ⟨m :: mrest, nm⟩).2
                    (some (args, trWithGargs memTy (trGargs et))))
          | _ => Except.error ()) := by
      simp only [enumTupleAttempt, hfound, hkind, hval, henum, if_pos]
    constructor
    · intro f r a
      simp only [resolveCallExpr, hattempt]
      cases hgs : resolveTRs env gargs with
      | error e => simp [hgs, Except.bind, Bind.bind]
      | ok gs =>
        cases het : resolveTR env (.unresolvedT (unameSplit ⟨m :: mrest, nm⟩).1.moduleNames
            (unameSplit ⟨m :: mrest, nm⟩).1.name gs) with
        | error e => simp [hgs, het, Except.bind, Bind.bind]
        | ok et =>
          simp only [hgs, het, Bind.bind, Except.bind]
          cases hact : actualType et with
          | enumT gp2 s2 members2 g2 =>
            cases hmem : enumGetMember members2 (unameSplit ⟨m :: mrest, nm⟩).2 with
            | none => simp [hmem]
            | some p => obtain ⟨tag, memTy⟩ := p; simp [hmem]
          | prim a b => simp
          | named a b c d e => simp
          | structT a b c => simp
          | tupleT a b => simp
          | arrayT a b c d => simp
          | pointerT a b c => simp
          | refT a b c => simp
          | fnT a b c d e f2 => simp
          | substT a b => simp
          | tyVar a b => simp
          | ctorT a b c d => simp
          | unresolvedT a b c => simp
    · intro gs et gp2 s2 members2 g2 hgs het hact
      constructor
      · intro hmem
        simp only [resolveCallExpr, hattempt, hgs, het, Bind.bind, Except.bind, hact, hmem]
      · intro tag memTy hmem
        simp only [resolveCallExpr, hattempt, hgs, het, Bind.bind, Except.bind, hact, hmem]

/-- The enum used by the C4 witness: `type Opt enum { Some(int), None }`,
declared in module `m`. -/
def c4OptEnum : TR :=
  TR.enumT [] false
    [("Some", 0, TR.tupleT [TR.prim "int" []] []), ("None", 1, TR.prim "void" [])] []

/-- The named wrapper `Opt` around the C4 witness enum. -/
def c4OptNamed : TR := TR.named "Opt" ["m"] [] c4OptEnum []

/-- The scope binding for `Opt` in the C4 witness. -/
def c4OptIdent : Ident := ⟨.typeK, true, ["m"], none, .tyV c4OptNamed⟩

/-- The lookup environment of the C4 witness: resolving module `m`, whose
scope binds only the type name `Opt`. -/
def c4Env : LookupEnv :=
  ⟨fun n => if n = ⟨[], "Opt"⟩ then some c4OptIdent else none,
   fun _ => none, ["m"], none⟩

/-- C4 witness: the call `Opt.Some(x)` resolves to an enum literal whose
tuple payload holds the call's single argument. -/
theorem c4_enum_call_rewrite_witness :
    resolveCallExpr c4Env (.vae ⟨["Opt"], "Some"⟩ []) none [.vae ⟨[], "x"⟩ []] =
      .ok (.enumLit c4OptNamed "Some"
        (some ([.vae ⟨[], "x"⟩ []], TR.tupleT [TR.prim "int" []] []))) :=
  ((c4_enum_call_rewrite c4Env ["Opt"] "Some" [] none [.vae ⟨[], "x"⟩ []]
      c4OptIdent c4OptNamed (by simp) rfl rfl rfl
      ⟨[], false, [("Some", 0, TR.tupleT [TR.prim "int" []] []), ("None", 1, TR.prim "void" [])],
        [], rfl⟩).2
    [] c4OptNamed []
    false [("Some", 0, TR.tupleT [TR.prim "int" []] []), ("None", 1, TR.prim "void" [])] []
    rfl rfl rfl).2 0 (TR.tupleT [TR.prim "int" []] []) rfl

/-- C8: a call whose function expression — possibly through reference-to
or pointer-to wrappers — resolves through a clean `getIdent` lookup to a
type binding is rewritten into a cast of that type (with the wrappers
re-applied) to the call's single argument, and any argument count other
than exactly one is a fatal error. -/
theorem c8_call_to_cast (env : LookupEnv) (ws : List (Bool × Bool)) (nm : String)
    (gargs : List TR) (recv : Option RExpr) (args : List RExpr) (id : Ident) (t : TR)
    (hlook : lookupChain env ⟨[], nm⟩ = some id)
    (hclean : getIdent env ⟨[], nm⟩ = (some id, false))
    (hkind : id.kind = .typeK)
    (hval : id.value = .tyV t) :
    (args.length ≠ 1 →
      resolveCallExpr env (mkWrapped ws (.vae ⟨[], nm⟩ gargs)) recv args = .error ()) ∧
    (∀ a, args = [a] →
      resolveCallExpr env (mkWrapped ws (.vae ⟨[], nm⟩ gargs)) recv args =
        .ok (.castE (applyWrappers ws t) a)) := by
  have hcast : resolveCallCast env (mkWrapped ws (.vae ⟨[], nm⟩ gargs)) recv args =
      (match args with
       | [a] => Except.ok (RExpr.castE (applyWrappers ws t) a)
       | _ => Except.error ()) := by
    have hpeel := peelRefPtr_mkWrapped ws ⟨[], nm⟩ gargs
    have hety : exprToType env (mkWrapped ws (.vae ⟨[], nm⟩ gargs)) =
        .ok (some (applyWrappers ws t)) := by
      simp only [exprToType, hpeel, hclean, hkind, hval, if_pos]
    simp only [resolveCallCast, hety, Bind.bind, Except.bind, pure, Except.pure]
  have hmain : resolveCallExpr env (mkWrapped ws (.vae ⟨[], nm⟩ gargs)) recv args =
      resolveCallCast env (mkWrapped ws (.vae ⟨[], nm⟩ gargs)) recv args := by
    cases ws with
    | nil =>
        simp only [mkWrapped]
        have htry : tryGetIdent env ⟨[], nm⟩ = (some id, false) :=
          tryGetIdent_of_lookupChain env ⟨[], nm⟩ id hlook
        simp only [resolveCallExpr, enumTupleAttempt, resolveCallAfterEnum, htry,
          retryLoop, buildWrap]
    | cons w rest =>
        obtain ⟨isRef, m⟩ := w
        cases isRef <;> simp [mkWrapped, resolveCallExpr]
  constructor
  · intro hlen
    rw [hmain, hcast]
    match args, hlen with
    | [], _ => rfl
    | a :: b :: rest, _ => rfl
  · intro a ha
    subst ha
    rw [hmain, hcast]

/-- The type binding for the C8 witness: the type name `T` in module `m`
wrapping a struct. -/
def c8TIdent : Ident :=
  ⟨.typeK, true, ["m"], none, .tyV (TR.named "T" ["m"] [] (TR.structT [] [] []) [])⟩

/-- The lookup environment of the C8 witness. -/
def c8Env : LookupEnv :=
  ⟨fun n => if n = ⟨[], "T"⟩ then some c8TIdent else none, fun _ => none, ["m"], none⟩

/-- C8 witness: `(^T)(x)` — the function expression is the type name `T`
under a pointer-to wrapper — becomes a cast of `^T` applied to `x`, and
the same call with two arguments is a fatal error. -/
theorem c8_call_to_cast_witness :
    resolveCallExpr c8Env (mkWrapped [(false, true)] (.vae ⟨[], "T"⟩ []))
        none [.vae ⟨[], "x"⟩ []] =
      .ok (.castE (TR.pointerT (TR.named "T" ["m"] [] (TR.structT [] [] []) []) true [])
        (.vae ⟨[], "x"⟩ [])) ∧
    resolveCallExpr c8Env (mkWrapped [(false, true)] (.vae ⟨[], "T"⟩ []))
        none [.vae ⟨[], "x"⟩ [], .vae ⟨[], "y"⟩ []] = .error () :=
  ⟨(c8_call_to_cast c8Env [(false, true)] "T" [] none [.vae ⟨[], "x"⟩ []]
      c8TIdent (TR.named "T" ["m"] [] (TR.structT [] [] []) [])
      rfl rfl rfl rfl).2 (.vae ⟨[], "x"⟩ []) rfl,
   (c8_call_to_cast c8Env [(false, true)] "T" [] none
      [.vae ⟨[], "x"⟩ [], .vae ⟨[], "y"⟩ []]
      c8TIdent (TR.named "T" ["m"] [] (TR.structT [] [] []) [])
      rfl rfl rfl rfl).1 (by simp)⟩

/-! ## Unification: sides, constraints, substitution, SolveStep (claims C6, C10) -/

mutual

/-- Modelled from the spec, except for the constructor-type and
type-variable cases which are in src: the structural `equals` predicate
on types (spec §3: "types are compared by a structural `equals`
predicate"; type.go is not under src/).  Named types compare nominally
by name and declaring module (spec §3: "Two named types are distinct
even if their underlying types are equal"); `TypeVariable.Equals`
(args.go:52-57) compares ids; `ConstructorType.Equals` (args.go:93-117)
compares constructor id, data and arguments pairwise. -/
def equalsTR : TR → TR → Bool
  | .prim n g, .prim n2 g2 => n == n2 && equalsTRList g g2
  | .named n mp _ _ g, .named n2 mp2 _ _ g2 => n == n2 && mp == mp2 && equalsTRList g g2
  | .structT gp ms g, .structT gp2 ms2 g2 =>
      gp == gp2 && equalsMemList ms ms2 && equalsTRList g g2
  | .tupleT ms g, .tupleT ms2 g2 => equalsTRList ms ms2 && equalsTRList g g2
  | .arrayT m f l g, .arrayT m2 f2 l2 g2 =>
      equalsTR m m2 && f == f2 && l == l2 && equalsTRList g g2
  | .pointerT a m g, .pointerT a2 m2 g2 => equalsTR a a2 && m == m2 && equalsTRList g g2
  | .refT a m g, .refT a2 m2 g2 => equalsTR a a2 && m == m2 && equalsTRList g g2
  | .fnT gp ps r rc v g, .fnT gp2 ps2 r2 rc2 v2 g2 =>
      gp == gp2 && equalsTRList ps ps2 && equalsOptTR r r2 && equalsOptTR rc rc2 &&
        v == v2 && equalsTRList g g2
  | .enumT gp s ms g, .enumT gp2 s2 ms2 g2 =>
      gp == gp2 && s == s2 && equalsEnumList ms ms2 && equalsTRList g g2
  | .substT n g, .substT n2 g2 => n == n2 && equalsTRList g g2
  | .tyVar i _, .tyVar i2 _ => i == i2
  | .ctorT c a d _, .ctorT c2 a2 d2 _ =>
      c == c2 && d == d2 && a.length == a2.length && equalsTRList a a2
  | .unresolvedT ms n g, .unresolvedT ms2 n2 g2 =>
      ms == ms2 && n == n2 && equalsTRList g g2
  | _, _ => false
termination_by structural t => t

def equalsTRList : List TR → List TR → Bool
  | [], [] => true
  | t :: ts, u :: us => equalsTR t u && equalsTRList ts us
  | _, _ => false
termination_by structural t => t

def equalsOptTR : Option TR → Option TR → Bool
  | none, none => true
  | some t, some u => equalsTR t u
  | _, _ => false
termination_by structural t => t

def equalsMemList : List (String × Bool × TR) → List (String × Bool × TR) → Bool
  | [], [] => true
  | (n, p, t) :: ts, (n2, p2, u) :: us =>
      n == n2 && p == p2 && equalsTR t u && equalsMemList ts us
  | _, _ => false
termination_by structural t => t

def equalsEnumList : List (String × Nat × TR) → List (String × Nat × TR) → Bool
  | [], [] => true
  | (n, tag, t) :: ts, (n2, tag2, u) :: us =>
      n == n2 && tag == tag2 && equalsTR t u && equalsEnumList ts us
  | _, _ => false
termination_by structural t => t

end

/-- Modelled from the spec: `TypeReference.ActualTypesEqual` (type.go is
not under src/): the two references' actual types are structurally
equal. -/
def actualTypesEqual (a b : TR) : Bool := equalsTR (actualType a) (actualType b)

/-- Modelled from the spec: `StructType.GetMember` (type.go is not under
src/): member lookup by name, yielding the member's public flag and
type. -/
def structGetMember : List (String × Bool × TR) → String → Option (Bool × TR)
  | [], _ => none
  | (n, p, t) :: rest, name => if n = name then some (p, t) else structGetMember rest name

/-- Modelled from the spec: the generic parameter names a type variant
carries (`getTypeGenericParameters`; the file defining it is not under
src/): structs, enums and functions own generic parameters (spec §3). -/
def trGenParams : TR → List String
  | .structT gp _ _ => gp
  | .enumT gp _ _ _ => gp
  | .fnT gp _ _ _ _ _ => gp
  | _ => []

/-- Modelled from the spec: `NewGenericContextFromTypeReference` (the
generic-context file is not under src/): build the substitution
environment from a reference that carries both the generic parameters
and the generic arguments (spec §4.7). -/
def genericContextFromTR (t : TR) : List (String × TR) :=
  (trGenParams t).zip (trGargs t)

/-- Name lookup in a generic context or a method table. -/
def lookupAssoc : List (String × TR) → String → Option TR
  | [], _ => none
  | (n, t) :: rest, name => if n = name then some t else lookupAssoc rest name

mutual

/-- Modelled from the spec: `GenericContext.Replace` (the generic-context
file is not under src/): descend through the type and substitute every
substitution type whose name the context maps (spec §4.7). -/
def gcReplace (gc : List (String × TR)) : TR → TR
  | .substT n g =>
      (match lookupAssoc gc n with
       | some r => r
       | none => .substT n (gcReplaceList gc g))
  | .prim n g => .prim n (gcReplaceList gc g)
  | .named n mp ms u g => .named n mp ms u (gcReplaceList gc g)
  | .structT gp ms g => .structT gp (gcReplaceMemList gc ms) (gcReplaceList gc g)
  | .tupleT ms g => .tupleT (gcReplaceList gc ms) (gcReplaceList gc g)
  | .arrayT m f l g => .arrayT (gcReplace gc m) f l (gcReplaceList gc g)
  | .pointerT a m g => .pointerT (gcReplace gc a) m (gcReplaceList gc g)
  | .refT r m g => .refT (gcReplace gc r) m (gcReplaceList gc g)
  | .fnT gp ps r rc v g =>
      .fnT gp (gcReplaceList gc ps) (gcReplaceOpt gc r) (gcReplaceOpt gc rc) v
        (gcReplaceList gc g)
  | .enumT gp s ms g => .enumT gp s (gcReplaceEnumList gc ms) (gcReplaceList gc g)
  | .tyVar i g => .tyVar i (gcReplaceList gc g)
  | .ctorT c a d g => .ctorT c (gcReplaceList gc a) d (gcReplaceList gc g)
  | .unresolvedT ms n g => .unresolvedT ms n (gcReplaceList gc g)

def gcReplaceList (gc : List (String × TR)) : List TR → List TR
  | [] => []
  | t :: ts => gcReplace gc t :: gcReplaceList gc ts

def gcReplaceOpt (gc : List (String × TR)) : Option TR → Option TR
  | none => none
  | some t => some (gcReplace gc t)

def gcReplaceMemList (gc : List (String × TR)) :
    List (String × Bool × TR) → List (String × Bool × TR)
  | [] => []
  | (n, p, t) :: ts => (n, p, gcReplace gc t) :: gcReplaceMemList gc ts

def gcReplaceEnumList (gc : List (String × TR)) :
    List (String × Nat × TR) → List (String × Nat × TR)
  | [] => []
  | (n, tag, t) :: ts => (n, tag, gcReplace gc t) :: gcReplaceEnumList gc ts

end

/-- `GetMethod` (args.go:367-393): strip pointers off the type and look
the method up on a named type's method table (`NamedType.GetMethod` is
modelled from the spec as name lookup in the type's method list).  The
interface and substitution-type cases of the Go function are not
representable here: the interface variant is not embedded and
substitution types do not carry their constraint lists, so both fall to
the no-method answer. -/
def getMethod (typ : TR) (name : String) : Option TR :=
  match typeWithoutPointers typ with
  | .named _ _ methods _ _ => lookupAssoc methods name
  | _ => none

mutual

/-- `SubsType` (args.go:216-365): descend through a type reference and
replace every occurrence of the type variable `id` by `what`.  The
constructor-type case first substitutes inside the arguments and then
tries to discharge the constructor (args.go:233-297): a struct-member
constructor resolves to a method's function type or to the member's
type, instantiated through a generic context when the receiving
reference carries generic arguments, auto-dereferencing one pointer
level; a deref constructor unwraps one level of indirection; an
array-index constructor unwraps an array's member type or a pointer's
addressee.  The function-type case (args.go:305-323) rebuilds the
function from the substituted parameters and return type only — the Go
struct literal drops the receiver and the generic parameters.  The
primitive, struct, named, enum and substitution cases return the type
unchanged (args.go:359-360).  The unresolved-type case cannot occur
during inference (the Go code would hit the internal-error case,
args.go:362-364) and returns the type unchanged. -/
def subsType (typ : TR) (id : Nat) (what : TR) : TR :=
  match typ with
  | .tyVar i g => if i = id then what else .tyVar i g
  | .ctorT cid args data g =>
      let nargs := subsTypeList args id what
      let fallback := TR.ctorT cid nargs data g
      (match cid, nargs with
       | .structMember, arg0 :: _ =>
           (match getMethod arg0 (data.getD "") with
            | some fnType => trWithGargs fnType g
            | none =>
                let typ2 := match arg0 with
                  | .pointerT a _ _ => a
                  | t => t
                (match actualType typ2 with
                 | .structT _ smembers _ =>
                     (match structGetMember smembers (data.getD "") with
                      | some (_, mtype) =>
                          if (trGargs typ2).length > 0 then
                            gcReplace (genericContextFromTR typ2) mtype
                          else mtype
                      | none => fallback)
                 | _ => fallback))
       | .deref, arg0 :: _ =>
           (match getAdressee arg0 with
            | some adressee =>
                if (trGargs typ).length > 0 then
                  gcReplace (genericContextFromTR typ) adressee
                else adressee
            | none => fallback)
       | .arrayIndex, arg0 :: _ =>
           (match actualType arg0 with
            | .arrayT mt _ _ _ =>
                if (trGargs typ).length > 0 then
                  gcReplace (genericContextFromTR typ) mt
                else mt
            | .pointerT mt _ _ =>
                if (trGargs typ).length > 0 then
                  gcReplace (genericContextFromTR typ) mt
                else mt
            | _ => fallback)
       | _, _ => fallback)
  | .fnT _ ps r _ variadic g =>
      .fnT [] (subsTypeList ps id what) (subsTypeOpt r id what) none variadic g
  | .tupleT ms g => .tupleT (subsTypeList ms id what) g
  | .arrayT m f l g => .arrayT (subsType m id what) f l g
  | .pointerT a m g => .pointerT (subsType a id what) m g
  | .refT r m g => .refT (subsType r id what) m g
  | .prim n g => .prim n g
  | .structT gp ms g => .structT gp ms g
  | .named n mp ms u g => .named n mp ms u g
  | .enumT gp s ms g => .enumT gp s ms g
  | .substT n g => .substT n g
  | .unresolvedT ms n g => .unresolvedT ms n g

def subsTypeList (ts : List TR) (id : Nat) (what : TR) : List TR :=
  match ts with
  | [] => []
  | t :: rest => subsType t id what :: subsTypeList rest id what

def subsTypeOpt (t : Option TR) (id : Nat) (what : TR) : Option TR :=
  match t with
  | none => none
  | some t => some (subsType t id what)

end

/-- A constraint side (args.go:157-183): a type-variable id or a concrete
type reference. -/
inductive Side where
  | identS (id : Nat)
  | typeS (t : TR)

/-- `SideFromType` (args.go:174-183): a reference whose base type is a
type variable becomes an ident side — dropping its generic arguments —
and anything else a type side. -/
def sideFromType : TR → Side
  | .tyVar i _ => .identS i
  | t => .typeS t

/-- A single constraint (args.go:131-136). -/
structure Constraint where
  left : Side
  right : Side

/-- `ConstraintFromTypes` (args.go:138-143). -/
def constraintFromTypes (l r : TR) : Constraint := ⟨sideFromType l, sideFromType r⟩

/-- `Side.Subs` (args.go:185-211): replace the type variable `id` in a
side; substituting an ident side by an ident side rebuilds it as a
type-variable reference. -/
def sideSubs (v : Side) (id : Nat) (what : Side) : Side :=
  match v with
  | .identS i => if i = id then what else .identS i
  | .typeS t =>
      match what with
      | .typeS wt => .typeS (subsType t id wt)
      | .identS wi => .typeS (subsType t id (.tyVar wi []))

/-- `Constraint.Subs` (args.go:149-155). -/
def constraintSubs (c : Constraint) (id : Nat) (what : Side) : Constraint :=
  ⟨sideSubs c.left id what, sideSubs c.right id what⟩

/-- The `subsAll` closure of `SolveStep` (args.go:1080-1087) on one list. -/
def subsAllList (cs : List Constraint) (id : Nat) (what : Side) : List Constraint :=
  cs.map (fun c => constraintSubs c id what)

/-- The guard and result of rule 4.2 of `SolveStep` (args.go:1139-1147):
both actual types are arrays; decompose into their member types. -/
def solveStepArrays (xt yt : TR) : Option Constraint :=
  match actualType xt, actualType yt with
  | .arrayT xm _ _ _, .arrayT ym _ _ _ => some (constraintFromTypes xm ym)
  | _, _ => none

/-- The guard and result of rule 4.3 of `SolveStep` (args.go:1149-1162):
both base types are constructor types with the same constructor id, the
same argument count and the same data; decompose pairwise. -/
def solveStepCtors (xt yt : TR) : Option (List Constraint) :=
  match xt, yt with
  | .ctorT xc xargs xd _, .ctorT yc yargs yd _ =>
      if xc = yc ∧ xargs.length = yargs.length ∧ xd = yd then
        some (List.zipWith constraintFromTypes xargs yargs)
      else none
  | _, _ => none

/-- The guard and result of rule 4.4 of `SolveStep` (args.go:1164-1210):
both actual types are function types.  Parameters decompose pairwise up
to the shorter list (variadic tolerance); the receivers decompose only
when both sides have one (a one-sided receiver is merely logged,
args.go:1190-1195); the return types decompose with `void` standing in
for an absent return. -/
def solveStepFns (xt yt : TR) : Option (List Constraint) :=
  match actualType xt, actualType yt with
  | .fnT _ xps xr xrc _ _, .fnT _ yps yr yrc _ _ =>
      let paramCons := List.zipWith constraintFromTypes xps yps
      let recvCons := match xrc, yrc with
        | some xa, some ya => [constraintFromTypes xa ya]
        | _, _ => []
      let xret := xr.getD (TR.prim "void" [])
      let yret := yr.getD (TR.prim "void" [])
      some (paramCons ++ recvCons ++ [constraintFromTypes xret yret])
  | _, _ => none

/-- The guard and result of rule 4.5 of `SolveStep` (args.go:1212-1224):
both actual types are tuples of equal arity; decompose pairwise. -/
def solveStepTuples (xt yt : TR) : Option (List Constraint) :=
  match actualType xt, actualType yt with
  | .tupleT xms _, .tupleT yms _ =>
      if xms.length = yms.length then
        some (List.zipWith constraintFromTypes xms yms)
      else none
  | _, _ => none

/-- `Inferrer.SolveStep` (args.go:1074-1230), returning the new stack and
substitution list.  Rule 1 drops an identical ident pair; rules 2 and 3
substitute an ident side everywhere and record it (when `addSubs` is
set); rule 4.0.1 drops a pair of equal actual types; rule 4.1 decomposes
two sides that both have addressees; rules 4.2-4.5 decompose arrays,
constructor types, function types and tuples; and rule 5 — two concrete
sides that are unequal and match no structural rule — returns both lists
unchanged, deferring the mismatch (args.go:1226-1229). -/
def solveStep (stackIn subsIn : List Constraint) (addSubs : Bool) (element : Constraint) :
    List Constraint × List Constraint :=
  match element.left, element.right with
  | .identS xi, .identS yi =>
      if xi = yi then (stackIn, subsIn)
      else
        (subsAllList stackIn xi (.identS yi),
         subsAllList subsIn xi (.identS yi) ++
           if addSubs then [⟨.identS xi, .identS yi⟩] else [])
  | .identS xi, .typeS yt =>
      (subsAllList stackIn xi (.typeS yt),
       subsAllList subsIn xi (.typeS yt) ++
         if addSubs then [⟨.identS xi, .typeS yt⟩] else [])
  | .typeS xt, .identS yi =>
      (subsAllList stackIn yi (.typeS xt),
       subsAllList subsIn yi (.typeS xt) ++
         if addSubs then [⟨.identS yi, .typeS xt⟩] else [])
  | .typeS xt, .typeS yt =>
      if actualTypesEqual xt yt then (stackIn, subsIn)
      else
        match getAdressee xt, getAdressee yt with
        | some xa, some ya => (stackIn ++ [constraintFromTypes xa ya], subsIn)
        | _, _ =>
          match solveStepArrays xt yt with
          | some c => (stackIn ++ [c], subsIn)
          | none =>
            match solveStepCtors xt yt with
            | some cs => (stackIn ++ cs, subsIn)
            | none =>
              match solveStepFns xt yt with
              | some cs => (stackIn ++ cs, subsIn)
              | none =>
                match solveStepTuples xt yt with
                | some cs => (stackIn ++ cs, subsIn)
                | none => (stackIn, subsIn)


/-- C6 counterexample: the claim requires the same indirection variant
and the same mutability on both sides for decomposition, but rule 4.1
decomposes a mutable pointer against an immutable reference: the
constraint `^mut $0 = &bool` is decomposed into `$0 = bool` rather than
being left alone. -/
theorem c6_counterexample_mixed_indirection :
    solveStep [] [] true
        ⟨.typeS (TR.pointerT (TR.tyVar 0 []) true []),
         .typeS (TR.refT (TR.prim "bool" []) false [])⟩ =
      ([⟨.identS 0, .typeS (TR.prim "bool" [])⟩], []) := rfl

/-- C6 amended: a constraint between two sides that both carry one level
of indirection — pointer or reference, with any mutability on either
side — and whose actual types are not equal decomposes into a
constraint between the two addressee types; in particular two pointer
types with the same mutability flag decompose into their addressees,
and likewise two reference types.  Matching variants or mutability
flags are not required. -/
theorem c6_indirection_decompose (stack subs : List Constraint) (addSubs : Bool) :
    (∀ xt yt xa ya, actualTypesEqual xt yt = false →
      getAdressee xt = some xa → getAdressee yt = some ya →
      solveStep stack subs addSubs ⟨.typeS xt, .typeS yt⟩ =
        (stack ++ [constraintFromTypes xa ya], subs)) ∧
    (∀ a b m g g2, actualTypesEqual (.pointerT a m g) (.pointerT b m g2) = false →
      solveStep stack subs addSubs ⟨.typeS (.pointerT a m g), .typeS (.pointerT b m g2)⟩ =
        (stack ++ [constraintFromTypes a b], subs)) ∧
    (∀ a b m g g2, actualTypesEqual (.refT a m g) (.refT b m g2) = false →
      solveStep stack subs addSubs ⟨.typeS (.refT a m g), .typeS (.refT b m g2)⟩ =
        (stack ++ [constraintFromTypes a b], subs)) := by
  have main : ∀ xt yt xa ya, actualTypesEqual xt yt = false →
      getAdressee xt = some xa → getAdressee yt = some ya →
      solveStep stack subs addSubs ⟨.typeS xt, .typeS yt⟩ =
        (stack ++ [constraintFromTypes xa ya], subs) := by
    intro xt yt xa ya heq hx hy
    simp only [solveStep, heq, Bool.false_eq_true, if_false, hx, hy]
  refine ⟨main, ?_, ?_⟩
  · intro a b m g g2 heq
    exact main _ _ a b heq rfl rfl
  · intro a b m g g2 heq
    exact main _ _ a b heq rfl rfl

/-- C6 amended witness: the same-mutability pointer pair `^mut $0 = ^mut
bool` decomposes into `$0 = bool`. -/
theorem c6_indirection_decompose_witness :
    solveStep [] [] true
        ⟨.typeS (TR.pointerT (TR.tyVar 0 []) true []),
         .typeS (TR.pointerT (TR.prim "bool" []) true [])⟩ =
      ([⟨.identS 0, .typeS (TR.prim "bool" [])⟩], []) :=
  (c6_indirection_decompose [] [] true).2.1 (TR.tyVar 0 []) (TR.prim "bool" [])
    true [] [] rfl

/-- C10: the solver never reports an error.  A popped constraint whose
two sides are concrete type references that are not equal and that match
none of the structural decomposition rules (addressees, arrays,
constructor types, function types, tuples) is silently discarded:
`SolveStep` returns the stack and the substitution list unchanged, so
the mismatch can only surface in a later pass. -/
theorem c10_solver_discards_mismatch (stack subs : List Constraint) (addSubs : Bool)
    (xt yt : TR)
    (heq : actualTypesEqual xt yt = false)
    (haddr : getAdressee xt = none ∨ getAdressee yt = none)
    (harr : solveStepArrays xt yt = none)
    (hctor : solveStepCtors xt yt = none)
    (hfn : solveStepFns xt yt = none)
    (htup : solveStepTuples xt yt = none) :
    solveStep stack subs addSubs ⟨.typeS xt, .typeS yt⟩ = (stack, subs) := by
  simp only [solveStep, heq, Bool.false_eq_true, if_false]
  cases hgx : getAdressee xt with
  | some xa =>
      cases hgy : getAdressee yt with
      | some ya =>
          rcases haddr with h | h
          · rw [hgx] at h; exact absurd h (by simp)
          · rw [hgy] at h; exact absurd h (by simp)
      | none => simp only [harr, hctor, hfn, htup]
  | none =>
      cases hgy : getAdressee yt with
      | some ya => simp only [harr, hctor, hfn, htup]
      | none => simp only [harr, hctor, hfn, htup]

/-- C10 witness: the unsolvable concrete constraint `int = bool` is
discarded, leaving stack and substitutions untouched. -/
theorem c10_solver_discards_mismatch_witness :
    solveStep [⟨.identS 3, .typeS (TR.prim "u8" [])⟩] [] true
        ⟨.typeS (TR.prim "int" []), .typeS (TR.prim "bool" [])⟩ =
      ([⟨.identS 3, .typeS (TR.prim "u8" [])⟩], []) :=
  c10_solver_discards_mismatch [⟨.identS 3, .typeS (TR.prim "u8" [])⟩] [] true
    (TR.prim "int" []) (TR.prim "bool" []) rfl (Or.inl rfl) rfl rfl rfl rfl

/-! ## Generic-argument extraction (claim C7) -/

mutual

/-- Node count of a type reference, for the termination measure of the
extraction worklist. -/
def sizeT : TR → Nat
  | .prim _ g => 1 + sizeTList g
  | .named _ _ _ u g => 1 + sizeT u + sizeTList g
  | .structT _ ms g => 1 + sizeTMemList ms + sizeTList g
  | .tupleT ms g => 1 + sizeTList ms + sizeTList g
  | .arrayT m _ _ g => 1 + sizeT m + sizeTList g
  | .pointerT a _ g => 1 + sizeT a + sizeTList g
  | .refT r _ g => 1 + sizeT r + sizeTList g
  | .fnT _ ps r rc _ g => 1 + sizeTList ps + sizeTOpt r + sizeTOpt rc + sizeTList g
  | .enumT _ _ ms g => 1 + sizeTEnumList ms + sizeTList g
  | .substT _ g => 1 + sizeTList g
  | .tyVar _ g => 1 + sizeTList g
  | .ctorT _ a _ g => 1 + sizeTList a + sizeTList g
  | .unresolvedT _ _ g => 1 + sizeTList g
termination_by structural t => t

def sizeTList : List TR → Nat
  | [] => 0
  | t :: ts => sizeT t + sizeTList ts
termination_by structural ts => ts

def sizeTOpt : Option TR → Nat
  | none => 0
  | some t => sizeT t
termination_by structural t => t

def sizeTMemList : List (String × Bool × TR) → Nat
  | [] => 0
  | (_, _, t) :: ts => sizeT t + sizeTMemList ts
termination_by structural ts => ts

def sizeTEnumList : List (String × Nat × TR) → Nat
  | [] => 0
  | (_, _, t) :: ts => sizeT t + sizeTEnumList ts
termination_by structural ts => ts

end

/-- Sizes are positive. -/
theorem sizeT_pos (t : TR) : 0 < sizeT t := by
  cases t <;> simp [sizeT] <;> omega

/-- Size of a concatenation. -/
theorem sizeTList_append (a b : List TR) :
    sizeTList (a ++ b) = sizeTList a + sizeTList b := by
  induction a with
  | nil => simp [sizeTList]
  | cons t ts ih => simp [sizeTList, ih]; omega

/-- `AddChildren` (args.go:1704-1749): append the children of a type to
the worklist — struct member types, the array member type, the pointer
addressee, tuple members, enum member payloads, a function's receiver
(when present) followed by its parameters but not its return type, and a
named type's generic arguments; primitives and substitution types have
no children.  Reference types and the inference-only variants fall into
the Go default case, which aborts; they are returned childless here and
never arise on the paths under proof. -/
def addChildren (typ : TR) (dest : List TR) : List TR :=
  match typ with
  | .structT _ ms _ => dest ++ ms.map (fun m => m.2.2)
  | .arrayT m _ _ _ => dest ++ [m]
  | .pointerT a _ _ => dest ++ [a]
  | .tupleT ms _ => dest ++ ms
  | .enumT _ _ ms _ => dest ++ ms.map (fun m => m.2.2)
  | .fnT _ ps _ rc _ _ =>
      dest ++ (match rc with | some r => [r] | none => []) ++ ps
  | .named _ _ _ _ g => dest ++ g
  | _ => dest

/-- The children of a type are strictly smaller than the type. -/
theorem sizeTList_addChildren (t : TR) : sizeTList (addChildren t []) < sizeT t := by
  cases t with
  | structT gp ms g =>
      simp only [addChildren, List.nil_append, sizeT]
      have : sizeTList (ms.map (fun m => m.2.2)) = sizeTMemList ms := by
        induction ms with
        | nil => simp [sizeTList, sizeTMemList]
        | cons m rest ih => obtain ⟨n, p, ty⟩ := m; simp [sizeTList, sizeTMemList, ih]
      omega
  | arrayT m f l g => simp [addChildren, sizeT, sizeTList] <;> omega
  | pointerT a m g => simp [addChildren, sizeT, sizeTList] <;> omega
  | tupleT ms g => simp [addChildren, sizeT] <;> omega
  | enumT gp s ms g =>
      simp only [addChildren, List.nil_append, sizeT]
      have : sizeTList (ms.map (fun m => m.2.2)) = sizeTEnumList ms := by
        induction ms with
        | nil => simp [sizeTList, sizeTEnumList]
        | cons m rest ih => obtain ⟨n, tag, ty⟩ := m; simp [sizeTList, sizeTEnumList, ih]
      omega
  | fnT gp ps r rc v g =>
      cases rc with
      | none => simp [addChildren, sizeT, sizeTList_append, sizeTOpt] <;> omega
      | some rcv =>
          simp [addChildren, sizeT, sizeTList_append, sizeTList, sizeTOpt] <;> omega
  | named n mp ms u g => simp [addChildren, sizeT] <;> omega
  | prim n g => simp [addChildren, sizeT, sizeTList] <;> omega
  | substT n g => simp [addChildren, sizeT, sizeTList] <;> omega
  | refT a m g => simp [addChildren, sizeT, sizeTList] <;> omega
  | tyVar i g => simp [addChildren, sizeT, sizeTList] <;> omega
  | ctorT c a d g => simp [addChildren, sizeT, sizeTList] <;> omega
  | unresolvedT ms n g => simp [addChildren, sizeT, sizeTList] <;> omega

/-- Whether a reference's base type is a type variable
(args.go:1671-1672). -/
def isTyVarTR : TR → Bool
  | .tyVar _ _ => true
  | _ => false

/-- The automatic pointer adjustment of `ExtractTypeVariable`
(args.go:1677-1684): when exactly one of the pair is a pointer, replace
it by its addressee. -/
def autoDerefAdjust (p v : TR) : TR × TR :=
  match p, v with
  | .pointerT _ _ _, .pointerT _ _ _ => (p, v)
  | .pointerT pa _ _, _ => (pa, v)
  | _, .pointerT va _ _ => (p, va)
  | _, _ => (p, v)

/-- The Go dynamic-type compatibility check of `ExtractTypeVariable`
(args.go:1686-1692): `reflect.TypeOf(ppart.BaseType).AssignableTo(vGoTyp)`
holds exactly when both base types are the same `ast` variant — all
primitives share the one Go type `PrimitiveType`, so any two primitives
are compatible. -/
def sameGoType : TR → TR → Bool
  | .prim _ _, .prim _ _ => true
  | .named _ _ _ _ _, .named _ _ _ _ _ => true
  | .structT _ _ _, .structT _ _ _ => true
  | .tupleT _ _, .tupleT _ _ => true
  | .arrayT _ _ _ _, .arrayT _ _ _ _ => true
  | .pointerT _ _ _, .pointerT _ _ _ => true
  | .refT _ _ _, .refT _ _ _ => true
  | .fnT _ _ _ _ _ _, .fnT _ _ _ _ _ _ => true
  | .enumT _ _ _ _, .enumT _ _ _ _ => true
  | .substT _ _, .substT _ _ => true
  | .tyVar _ _, .tyVar _ _ => true
  | .ctorT _ _ _ _, .ctorT _ _ _ _ => true
  | .unresolvedT _ _ _, .unresolvedT _ _ _ => true
  | _, _ => false

/-- In-place update of an association list entry. -/
def assocUpdate : List (String × TR) → String → TR → List (String × TR)
  | [], _, _ => []
  | (n, t) :: rest, name, v =>
      if n = name then (name, v) :: rest else (n, t) :: assocUpdate rest name v

/-- An entry update in the extraction map (args.go:1663-1668): a fresh
name is recorded; an existing entry is overwritten only when it is
itself still a substitution type. -/
def extractInsert (res : List (String × TR)) (name : String) (v : TR) :
    List (String × TR) :=
  match lookupAssoc res name with
  | none => res ++ [(name, v)]
  | some (.substT _ _) => assocUpdate res name v
  | some _ => res

/-- The worklist loop of `ExtractTypeVariable` (args.go:1657-1698) over
the unprocessed suffixes of the two parallel lists: a substitution-type
pattern records the value part; a pair with a type variable on either
side is skipped; otherwise the pair is pointer-adjusted, its Go types
must be compatible — a mismatch is the extraction error — and both
parts push their children onto the tails of their lists.  A pattern
element with no matching value element is the Go index-out-of-range
abort. -/
theorem autoDerefAdjust_fst_le (p v : TR) : sizeT (autoDerefAdjust p v).1 ≤ sizeT p := by
  cases p <;> cases v <;> simp [autoDerefAdjust, sizeT] <;> omega

/-- The substitution-type test of the worklist loop (args.go:1662 is a
Go type assertion `ppart.BaseType.(*SubstitutionType)`): the
substitution type's name when the pattern part is one. -/
def substNameOf : TR → Option String
  | .substT n _ => some n
  | _ => none

def extractLoop (ps vs : List TR) (res : List (String × TR)) :
    Option (List (String × TR)) :=
  match ps, vs with
  | [], _ => some res
  | p :: prest, v :: vrest =>
      match substNameOf p with
      | some name => extractLoop prest vrest (extractInsert res name v)
      | none =>
          if isTyVarTR p || isTyVarTR v then extractLoop prest vrest res
          else
            let pv := autoDerefAdjust p v
            if sameGoType pv.1 pv.2 then
              extractLoop (prest ++ addChildren pv.1 []) (vrest ++ addChildren pv.2 []) res
            else none
  | _ :: _, [] => none
termination_by sizeTList ps
decreasing_by
  · simp only [sizeTList]
    exact Nat.lt_add_of_pos_left (sizeT_pos _)
  · simp only [sizeTList]
    exact Nat.lt_add_of_pos_left (sizeT_pos _)
  · simp only [sizeTList, sizeTList_append]
    have h1 := sizeTList_addChildren (autoDerefAdjust p v).1
    have h2 := autoDerefAdjust_fst_le p v
    omega

/-- `ExtractTypeVariable` (args.go:1650-1701): walk the pattern and the
value in lock step and collect the substitution-type bindings. -/
def extractTypeVariable (pattern value : TR) : Option (List (String × TR)) :=
  extractLoop [pattern] [value] []

mutual

/-- The claim's `apply` operation, stated in the claim's own words for
comparison with the source-derived extraction: substitute each
substitution-type leaf of the pattern by its image under the extracted
map, leaving unmapped leaves in place. -/
def applyExtracted (sg : List (String × TR)) : TR → TR
  | .substT n g =>
      (match lookupAssoc sg n with
       | some r => r
       | none => .substT n (applyExtractedList sg g))
  | .prim n g => .prim n (applyExtractedList sg g)
  | .named n mp ms u g => .named n mp ms (applyExtracted sg u) (applyExtractedList sg g)
  | .structT gp ms g => .structT gp (applyExtractedMemList sg ms) (applyExtractedList sg g)
  | .tupleT ms g => .tupleT (applyExtractedList sg ms) (applyExtractedList sg g)
  | .arrayT m f l g => .arrayT (applyExtracted sg m) f l (applyExtractedList sg g)
  | .pointerT a m g => .pointerT (applyExtracted sg a) m (applyExtractedList sg g)
  | .refT r m g => .refT (applyExtracted sg r) m (applyExtractedList sg g)
  | .fnT gp ps r rc v g =>
      .fnT gp (applyExtractedList sg ps) (applyExtractedOpt sg r) (applyExtractedOpt sg rc)
        v (applyExtractedList sg g)
  | .enumT gp sp ms g => .enumT gp sp (applyExtractedEnumList sg ms) (applyExtractedList sg g)
  | .tyVar i g => .tyVar i (applyExtractedList sg g)
  | .ctorT c a d g => .ctorT c (applyExtractedList sg a) d (applyExtractedList sg g)
  | .unresolvedT ms n g => .unresolvedT ms n (applyExtractedList sg g)
termination_by structural t => t

def applyExtractedList (sg : List (String × TR)) : List TR → List TR
  | [] => []
  | t :: ts => applyExtracted sg t :: applyExtractedList sg ts
termination_by structural ts => ts

def applyExtractedOpt (sg : List (String × TR)) : Option TR → Option TR
  | none => none
  | some t => some (applyExtracted sg t)
termination_by structural t => t

def applyExtractedMemList (sg : List (String × TR)) :
    List (String × Bool × TR) → List (String × Bool × TR)
  | [] => []
  | (n, p, t) :: ts => (n, p, applyExtracted sg t) :: applyExtractedMemList sg ts
termination_by structural ts => ts

def applyExtractedEnumList (sg : List (String × TR)) :
    List (String × Nat × TR) → List (String × Nat × TR)
  | [] => []
  | (n, tag, t) :: ts => (n, tag, applyExtracted sg t) :: applyExtractedEnumList sg ts
termination_by structural ts => ts

end

/-- C7 counterexample: for the pattern `($T, int)` and the value
`(bool, bool)` extraction succeeds — the primitive leaves `int` and
`bool` share the one Go type `PrimitiveType`, so the shape check passes
— yielding `{T ↦ bool}`, but applying that map to the pattern gives
`(bool, int)`, which is not the value: the extract-then-apply round trip
fails on a successful extraction. -/
theorem c7_counterexample_extract_apply :
    extractTypeVariable (TR.tupleT [TR.substT "T" [], TR.prim "int" []] [])
        (TR.tupleT [TR.prim "bool" [], TR.prim "bool" []] []) =
      some [("T", TR.prim "bool" [])] ∧
    applyExtracted [("T", TR.prim "bool" [])]
        (TR.tupleT [TR.substT "T" [], TR.prim "int" []] []) =
      TR.tupleT [TR.prim "bool" [], TR.prim "int" []] [] ∧
    TR.tupleT [TR.prim "bool" [], TR.prim "int" []] [] ≠
      TR.tupleT [TR.prim "bool" [], TR.prim "bool" []] [] := by
  refine ⟨?_, ?_, ?_⟩
  · simp [extractTypeVariable, extractLoop, substNameOf, isTyVarTR, autoDerefAdjust,
      sameGoType, addChildren, extractInsert, lookupAssoc]
  · simp [applyExtracted, applyExtractedList, lookupAssoc]
  · simp

/-- C7 amended: the extract-then-apply round trip does hold for patterns
whose substitution variables each occur once and where no implicit
pointer adjustment fires: for every value `v`, extracting against the
bare pattern `$T` or the pattern `^$T` (against `^v`) yields `{T ↦ v}`,
and applying it to the pattern reproduces the value exactly.  In
general a successful extraction does not satisfy the round trip: a
repeated variable keeps its first binding, and the shape check conflates
all primitive types, as the counterexample shows. -/
theorem c7_extract_apply_roundtrip (v : TR) (m : Bool) :
    (extractTypeVariable (TR.substT "T" []) v = some [("T", v)] ∧
      applyExtracted [("T", v)] (TR.substT "T" []) = v) ∧
    (extractTypeVariable (TR.pointerT (TR.substT "T" []) m []) (TR.pointerT v m []) =
        some [("T", v)] ∧
      applyExtracted [("T", v)] (TR.pointerT (TR.substT "T" []) m []) =
        TR.pointerT v m []) := by
  refine ⟨⟨?_, ?_⟩, ?_, ?_⟩
  · simp [extractTypeVariable, extractLoop, substNameOf, extractInsert, lookupAssoc]
  · simp [applyExtracted, lookupAssoc]
  · simp [extractTypeVariable, extractLoop, substNameOf, isTyVarTR, autoDerefAdjust,
      sameGoType, addChildren, extractInsert, lookupAssoc]
  · simp [applyExtracted, applyExtractedList, lookupAssoc]

/-! ## Name mangling (claim C5) -/

/-- The pointer-stripping loop heading `TypeReferenceMangledName`
(mangle.go:31-38): count the pointer wrappers and return the stripped
reference. -/
def peelPointers : TR → Nat × TR
  | .pointerT a _ _ => let (k, t) := peelPointers a; (k + 1, t)
  | t => (0, t)

/-- The run of `p` characters the pointer loop appends
(mangle.go:34). -/
def pRun : Nat → String
  | 0 => ""
  | k + 1 => "p" ++ pRun k

mutual

/-- `TypeReferenceMangledName` (mangle.go:26-119), step-indexed: the
`fuel` argument only bounds the recursion depth (the Go function
recurses without bound and diverges on a cyclic generic context; on any
input whose recursion is deeper than the fuel the result is truncated,
and every concrete use below supplies ample fuel).  The mangled string
starts with `_` and one `p` per stripped pointer level; then the
variant tag: `A` for arrays; `R` plus `M`/`C` for references; `E`/`S`/`T`
plus the member count for enums, structs and tuples; the body length
plus `FT` plus receiver-params-return for functions (an absent receiver
contributes nothing, which is what makes the C5 counterexample
collide); length-prefixed type names for named and primitive types; a
substitution type resolved through the generic context replaces the
whole result, and an unresolved one is its bare name (mangle.go:94-104).
The inference-only variants hit the Go `panic` (mangle.go:105-106),
rendered as `?`.  Finally the stripped reference's generic arguments
append a `GA` group (mangle.go:110-113). -/
def mangleTR (gcon : List (String × TR)) : Nat → TR → String
  | 0, _ => ""
  | fuel + 1, typ0 =>
      let pk := peelPointers typ0
      let prefixStr := "_" ++ pRun pk.1
      let res :=
        match pk.2 with
        | .arrayT m _ _ _ => prefixStr ++ "A" ++ mangleTR gcon fuel m
        | .refT r mu _ =>
            prefixStr ++ "R" ++ (if mu then "M" else "C") ++ mangleTR gcon fuel r
        | .enumT _ _ ms _ =>
            prefixStr ++ "E" ++ toString ms.length ++ mangleEnumMems gcon fuel ms
        | .structT _ ms _ =>
            prefixStr ++ "S" ++ toString ms.length ++ mangleStructMems gcon fuel ms
        | .tupleT ms _ =>
            prefixStr ++ "T" ++ toString ms.length ++ mangleTRs gcon fuel ms
        | .fnT _ ps r rc _ _ =>
            let str := mangleTRs gcon fuel ps ++
              (match r with | some rr => mangleTR gcon fuel rr | none => "")
            let str := (match rc with | some rv => mangleTR gcon fuel rv | none => "") ++ str
            prefixStr ++ toString str.length ++ "FT" ++ str
        | .named n _ _ _ _ => prefixStr ++ toString n.length ++ n
        | .prim n _ => prefixStr ++ toString n.length ++ n
        | .substT n _ =>
            (match lookupAssoc gcon n with
             | some it => mangleTR gcon fuel it
             | none => n)
        | _ => prefixStr ++ "?"
      let gas := mangleTRs gcon fuel (trGargs pk.2)
      res ++ (if gas.length > 0 then "GA" ++ gas else "")

/-- `TypeReferencesMangledName` (mangle.go:17-23). -/
def mangleTRs (gcon : List (String × TR)) : Nat → List TR → String
  | 0, _ => ""
  | _ + 1, [] => ""
  | fuel + 1, t :: ts => mangleTR gcon fuel t ++ mangleTRs gcon fuel ts

/-- The enum member loop of the mangler (mangle.go:53-57): each member's
payload type is wrapped into a fresh reference and mangled. -/
def mangleEnumMems (gcon : List (String × TR)) : Nat → List (String × Nat × TR) → String
  | 0, _ => ""
  | _ + 1, [] => ""
  | fuel + 1, (_, _, t) :: ts => mangleTR gcon fuel t ++ mangleEnumMems gcon fuel ts

/-- The struct member loop of the mangler (mangle.go:59-63). -/
def mangleStructMems (gcon : List (String × TR)) : Nat → List (String × Bool × TR) → String
  | 0, _ => ""
  | _ + 1, [] => ""
  | fuel + 1, (_, _, t) :: ts => mangleTR gcon fuel t ++ mangleStructMems gcon fuel ts

end

/-- `Module.MangledName` (mangle.go:121-135): `_M` plus the
length-prefixed segment, for each segment of the module's name-path. -/
def moduleMangledName : List String → String
  | [] => ""
  | p :: rest => "_M" ++ toString p.length ++ p ++ moduleMangledName rest

/-- A resolved function symbol as `Function.MangledName`
(mangle.go:137-170) consumes it: its name, the declared types of its
parameters (`arg.Variable.Type`), its return type (`v.Type.Return`,
whose absence would crash the Go mangler and stands for `no return`
here), its receiver type (`v.Type.Receiver`), its static receiver type
(`v.StaticReceiverType`) and its module's name-path
(`v.ParentModule.Name.Parts`). -/
structure FunSym where
  name : String
  parameters : List TR
  retType : Option TR
  receiver : Option TR
  staticRecv : Option TR
  modPath : List String

/-- `Function.MangledName` (mangle.go:137-170): a function named `main`
mangles to the literal string `main` before anything else is looked at;
otherwise the name is prefixed by `m` for a method, `s` for a static
method or nothing for a free function, length-prefix encoded, followed
by the mangled parameter and return types, with the mangled receiver
(or static receiver) prepended and the mangled module path in front. -/
def functionMangledName (gcon : List (String × TR)) (fuel : Nat) (f : FunSym) : String :=
  if f.name = "main" then "main"
  else
    let prefixStr :=
      match f.receiver with
      | some _ => "m"
      | none => match f.staticRecv with | some _ => "s" | none => ""
    let result := "_" ++ prefixStr ++ "F" ++ toString f.name.length ++ f.name
    let result := result ++ mangleTRs gcon fuel f.parameters
    let result := result ++
      (match f.retType with | some r => mangleTR gcon fuel r | none => "")
    let result :=
      (match f.receiver with
       | some r => mangleTR gcon fuel r
       | none =>
           match f.staticRecv with
           | some s => mangleTR gcon fuel s
           | none => "") ++ result
    moduleMangledName f.modPath ++ result

/-- Appending a common prefix and equal-length distinct middles yields
distinct strings. -/
theorem string_ne_of_parts (p n1 n2 r1 r2 : String)
    (hlen : n1.length = n2.length) (hne : n1 ≠ n2) :
    p ++ (n1 ++ r1) ≠ p ++ (n2 ++ r2) := by
  intro h
  have hd := congrArg String.data h
  simp only [String.data_append] at hd
  have h2 : n1.data ++ r1.data = n2.data ++ r2.data := List.append_cancel_left hd
  have h3 : n1.data.length = n2.data.length := hlen
  have h4 := (List.append_inj h2 h3).1
  exact hne (String.ext h4)

/-- The character shape of a free function's mangled name: module
encoding, then `_F`, the name-length digits, the name, and the mangled
parameter and return types. -/
theorem functionMangled_data_shape (gcon : List (String × TR)) (fuel : Nat) (f : FunSym)
    (hr : f.receiver = none) (hs : f.staticRecv = none) (hn : f.name ≠ "main") :
    (functionMangledName gcon fuel f).data =
      (moduleMangledName f.modPath).data ++
        (('_' :: 'F' :: (toString f.name.length).data) ++
          (f.name.data ++
            ((mangleTRs gcon fuel f.parameters).data ++
              (match f.retType with
               | some r => mangleTR gcon fuel r
               | none => "").data))) := by
  simp only [functionMangledName, hr, hs, if_neg hn]
  simp [String.data_append]

/-- A mangled module path is empty or starts with an underscore. -/
theorem moduleMangled_data_head (parts : List String) :
    (moduleMangledName parts).data = [] ∨
      ∃ l, (moduleMangledName parts).data = '_' :: l := by
  cases parts with
  | nil => exact Or.inl rfl
  | cons p rest =>
      right
      simp only [moduleMangledName]
      simp [String.data_append]

/-- The mangled name of a free function not named `main` starts with an
underscore. -/
theorem functionMangled_data_head (gcon : List (String × TR)) (fuel : Nat) (f : FunSym)
    (hn : f.name ≠ "main") (hr : f.receiver = none) (hs : f.staticRecv = none) :
    ∃ l, (functionMangledName gcon fuel f).data = '_' :: l := by
  simp only [functionMangledName, if_neg hn, hr, hs]
  rcases moduleMangled_data_head f.modPath with h | ⟨l, h⟩
  · simp [String.data_append, h]
  · simp [String.data_append, h]

/-- C5 counterexample: mangling is not injective on resolved symbols
beyond the `main` exception.  Two distinct free functions named `g` in
module `m` — one taking a parameter of the receiverless function type
`fn(int) void`, the other a parameter of the method type `fn(recv int)
void` with no ordinary parameters — produce the same mangled string,
because the function-type encoding prepends the receiver to the
parameter string without marking it (mangle.go:71-80). -/
theorem c5_counterexample_mangle_collision :
    functionMangledName [] 10
        ⟨"g", [TR.fnT [] [TR.prim "int" []] (some (TR.prim "void" [])) none false []],
         some (TR.prim "void" []), none, none, ["m"]⟩ =
      functionMangledName [] 10
        ⟨"g", [TR.fnT [] [] (some (TR.prim "void" [])) (some (TR.prim "int" [])) false []],
         some (TR.prim "void" []), none, none, ["m"]⟩ ∧
    (⟨"g", [TR.fnT [] [TR.prim "int" []] (some (TR.prim "void" [])) none false []],
      some (TR.prim "void" []), none, none, ["m"]⟩ : FunSym) ≠
      ⟨"g", [TR.fnT [] [] (some (TR.prim "void" [])) (some (TR.prim "int" [])) false []],
       some (TR.prim "void" []), none, none, ["m"]⟩ ∧
    ("g" : String) ≠ "main" := by
  refine ⟨rfl, by simp, by decide⟩

/-- C5 amended: mangling is a function of the resolved symbol and the
function named `main` always mangles to the literal string `main`, but
mangling is not injective on all distinct resolved symbols: besides two
distinct `main` free functions, symbols whose parameter types differ
only by repositioning a function type's receiver as its leading
parameter also collide (see the counterexample).  Distinctness does
hold for two free functions of the same module with different names of
equal length — including when one of them is `main`. -/
theorem c5_mangling_amended (gcon : List (String × TR)) (fuel : Nat) :
    (∀ f : FunSym, f.name = "main" → functionMangledName gcon fuel f = "main") ∧
    (∀ f1 f2 : FunSym,
      f1.modPath = f2.modPath →
      f1.receiver = none → f2.receiver = none →
      f1.staticRecv = none → f2.staticRecv = none →
      f1.name ≠ f2.name → f1.name.length = f2.name.length →
      functionMangledName gcon fuel f1 ≠ functionMangledName gcon fuel f2) := by
  constructor
  · intro f h
    simp [functionMangledName, h]
  · intro f1 f2 hmod hr1 hr2 hs1 hs2 hne hlen
    by_cases h1 : f1.name = "main"
    · have h2 : f2.name ≠ "main" := by rw [h1] at hne; exact fun hc => hne hc.symm
      intro h
      obtain ⟨l, hl⟩ := functionMangled_data_head gcon fuel f2 h2 hr2 hs2
      have hdata : (functionMangledName gcon fuel f1).data = '_' :: l := by rw [h, hl]
      rw [show functionMangledName gcon fuel f1 = "main" from by
        simp [functionMangledName, h1]] at hdata
      simp at hdata
    · by_cases h2 : f2.name = "main"
      · intro h
        obtain ⟨l, hl⟩ := functionMangled_data_head gcon fuel f1 h1 hr1 hs1
        have hdata : (functionMangledName gcon fuel f2).data = '_' :: l := by rw [← h, hl]
        rw [show functionMangledName gcon fuel f2 = "main" from by
          simp [functionMangledName, h2]] at hdata
        simp at hdata
      · intro h
        have hd := congrArg String.data h
        rw [functionMangled_data_shape gcon fuel f1 hr1 hs1 h1,
            functionMangled_data_shape gcon fuel f2 hr2 hs2 h2, hmod, hlen] at hd
        have step1 := List.append_cancel_left hd
        have step2 := List.append_cancel_left step1
        have h3 : f1.name.data.length = f2.name.data.length := hlen
        have h4 := (List.append_inj step2 h3).1
        exact hne (String.ext h4)

/-- C5 amended witness: a concrete `main` mangles to `main`, and the
distinct single-letter free functions `f` and `g` of module `m` mangle
distinctly. -/
theorem c5_mangling_amended_witness :
    functionMangledName [] 5 ⟨"main", [], some (TR.prim "void" []), none, none, ["m"]⟩ =
      "main" ∧
    functionMangledName [] 5 ⟨"f", [], some (TR.prim "void" []), none, none, ["m"]⟩ ≠
      functionMangledName [] 5 ⟨"g", [], some (TR.prim "void" []), none, none, ["m"]⟩ :=
  ⟨(c5_mangling_amended [] 5).1
      ⟨"main", [], some (TR.prim "void" []), none, none, ["m"]⟩ rfl,
   (c5_mangling_amended [] 5).2
      ⟨"f", [], some (TR.prim "void" []), none, none, ["m"]⟩
      ⟨"g", [], some (TR.prim "void" []), none, none, ["m"]⟩
      rfl rfl rfl rfl rfl (by decide) rfl⟩
